import Mathlib

/-!
# xiaozhi-esp32: battery monitor and OLED chat text

A shallow embedding of

* `main/battery/battery_monitor.cc` (`BatteryMonitor`),
* `main/display/oled_display.cc` (`OledDisplay`), and
* `main/boards/silicore-lite/silicore_lite_c3_oled.cc` (`SilicoreC3Oled`),

together with the properties of the specification that concern them.

`float` is IEEE-754 binary32.  A finite value is modelled by the rational number it
denotes, and every arithmetic operation rounds its exact result to the nearest
binary32 value, ties to even; the two infinities and NaN are separate values.
The sign of a zero is not tracked: nothing in this program depends on it.

A C string is the list of its `char`s in front of the terminator, one list element
per `char`; a pointer that may be null is an `Option`.  Code whose behaviour is
undefined in C++ (a write outside an array, a conversion to `int` out of range, a
`std::string` built from a null pointer) returns `none`.
-/

/-! ## IEEE-754 binary32 -/

/-- Nearest integer to a rational, a tie going to the even neighbour. -/
def roundHalfEven (q : ℚ) : ℤ :=
  if q - ⌊q⌋ < 1 / 2 then ⌊q⌋
  else if 1 / 2 < q - ⌊q⌋ then ⌊q⌋ + 1
  else if ⌊q⌋ % 2 = 0 then ⌊q⌋ else ⌊q⌋ + 1

/-- Exponent of the unit in the last place of a magnitude `q`: the significand has
24 bits and the smallest normal exponent is `-126` (below it the spacing stays
`2 ^ (-149)`, the subnormal range). -/
def ulpExp (q : ℚ) : ℤ := max (Int.log 2 q) (-126) - 23

/-- Round a magnitude (`0 ≤ q`) to 24 significant bits, exponent unbounded above. -/
def roundMag (q : ℚ) : ℚ :=
  (roundHalfEven (q / (2 : ℚ) ^ ulpExp q) : ℚ) * (2 : ℚ) ^ ulpExp q

/-- Round to nearest even, sign and magnitude, exponent unbounded above. -/
def roundQ (q : ℚ) : ℚ := if q < 0 then -roundMag (-q) else roundMag q

/-- Largest finite binary32 value, `(2 ^ 24 - 1) * 2 ^ 104`. -/
def maxFinite : ℚ := (2 ^ 24 - 1) * 2 ^ 104

/-- A value of type `float`. -/
inductive F32 where
  | nan : F32
  | inf (neg : Bool) : F32
  | fin (q : ℚ) : F32
  deriving DecidableEq

namespace F32

/-- Correctly rounded result of an operation whose exact value is `q`: a rounded
magnitude above `maxFinite` overflows to the infinity of that sign. -/
def round (q : ℚ) : F32 :=
  if maxFinite < roundQ q then inf false
  else if roundQ q < -maxFinite then inf true
  else fin (roundQ q)

/-- A decimal `float` literal such as `3.3f`. -/
def lit (q : ℚ) : F32 := round q

/-- Conversion `int` to `float`. -/
def ofInt (z : ℤ) : F32 := round z

/-- Subtraction `a - b` on `float`. -/
def sub : F32 → F32 → F32
  | fin x, fin y => round (x - y)
  | fin _, inf s => inf (!s)
  | inf s, fin _ => inf s
  | inf s, inf t => if s = t then nan else inf s
  | _, _ => nan

/-- Multiplication `a * b` on `float`. -/
def mul : F32 → F32 → F32
  | fin x, fin y => round (x * y)
  | fin x, inf s => if x = 0 then nan else inf (s != decide (x < 0))
  | inf s, fin y => if y = 0 then nan else inf (s != decide (y < 0))
  | inf s, inf t => inf (s != t)
  | _, _ => nan

/-- Division `a / b` on `float`; a zero divisor counts as `+0`. -/
def div : F32 → F32 → F32
  | fin x, fin y =>
    if y = 0 then (if x = 0 then nan else inf (decide (x < 0))) else round (x / y)
  | fin _, inf _ => fin 0
  | inf s, fin y => inf (s != decide (y < 0))
  | _, _ => nan

/-- Comparison `a < b` on `float`: false as soon as an operand is NaN. -/
def lt : F32 → F32 → Bool
  | fin x, fin y => decide (x < y)
  | fin _, inf s => !s
  | inf s, fin _ => s
  | inf s, inf t => s && !t
  | _, _ => false

/-- Comparison `a <= b` on `float`: false as soon as an operand is NaN. -/
def le : F32 → F32 → Bool
  | fin x, fin y => decide (x ≤ y)
  | fin _, inf s => !s
  | inf s, fin _ => s
  | inf s, inf t => s || !t
  | _, _ => false

/-- Integer part of a rational, rounding toward zero. -/
def truncToZero (q : ℚ) : ℤ := if 0 ≤ q then ⌊q⌋ else ⌈q⌉

/-- Conversion `(int)x` of a `float`: the fractional part is discarded; the behaviour
is undefined (`none`) when the truncated value does not fit a 32-bit `int`, which
includes the infinities and NaN. -/
def toInt : F32 → Option ℤ
  | fin q =>
    if -2 ^ 31 ≤ truncToZero q ∧ truncToZero q < 2 ^ 31 then some (truncToZero q) else none
  | _ => none

/-- Clamp of a `float` to the interval `[lo, hi]`; not defined for NaN. -/
def clamp (lo hi : ℚ) : F32 → Option ℚ
  | fin x => some (max lo (min hi x))
  | inf s => some (if s then lo else hi)
  | nan => none

/-- Clamp to `[lo, hi]` of an integer rounding `r` of a `float`, an infinity being
clamped to the bound on its side; not defined for NaN. -/
def clampRounded (r : ℚ → ℤ) (lo hi : ℤ) : F32 → Option ℤ
  | fin x => some (max lo (min hi (r x)))
  | inf s => some (if s then lo else hi)
  | nan => none

/-- Result of an operation that is the rounding of `f` on finite operands and keeps
an infinite operand. -/
def lift (f : ℚ → ℚ) : F32 → F32
  | fin x => round (f x)
  | inf s => inf s
  | nan => nan

end F32

/-- Nearest integer to a rational, a tie going up. -/
def roundNearest (q : ℚ) : ℤ := ⌊q + 1 / 2⌋

/-! ## `battery_monitor.cc` -/

/-- Constant `BATTERY_MAX_VOLTAGE = 4.2f`. -/
def BATTERY_MAX_VOLTAGE : F32 := F32.lit (42 / 10)

/-- Constant `BATTERY_MIN_VOLTAGE = 3.3f`. -/
def BATTERY_MIN_VOLTAGE : F32 := F32.lit (33 / 10)

/-- Answers of the ESP-IDF ADC driver to the calls `BatteryMonitor` makes.  The driver
is not part of the repository.  `none` stands for an error code other than `ESP_OK`;
a call that succeeds yields the value it writes through its out-parameter, and a
call that fails leaves the out-parameter untouched.  A handle written on success is
not null. -/
structure AdcDriver where
  /-- Result of `adc_oneshot_new_unit`: the new unit handle. -/
  adc_oneshot_new_unit : Option ℕ
  /-- Result of `adc_oneshot_config_channel`: `true` for `ESP_OK`. -/
  adc_oneshot_config_channel : Bool
  /-- Result of `adc_cali_create_scheme_curve_fitting`: the calibration handle. -/
  adc_cali_create_scheme_curve_fitting : Option ℕ
  /-- Result of `adc_oneshot_read`: the raw sample. -/
  adc_oneshot_read : Option ℤ
  /-- Result of `adc_cali_raw_to_voltage` on a raw sample: the millivolts. -/
  adc_cali_raw_to_voltage : ℤ → Option ℤ

/-- A driver whose calls all succeed and whose calibration reports `mv` millivolts
for every raw sample. -/
def AdcDriver.steady (mv : ℤ) : AdcDriver :=
  { adc_oneshot_new_unit := some 1
    adc_oneshot_config_channel := true
    adc_cali_create_scheme_curve_fitting := some 2
    adc_oneshot_read := some 0
    adc_cali_raw_to_voltage := fun _ => some mv }

/-- Data members of `class BatteryMonitor`; a null handle is `none`. -/
structure BatteryMonitor where
  adc1_handle : Option ℕ
  adc1_cali_handle : Option ℕ
  adc_channel : ℤ
  voltage_divider_ratio : F32

namespace BatteryMonitor

/-- Constructor `BatteryMonitor(gpio_num, divider_ratio)`. -/
def new (gpio_num : ℤ) (divider_ratio : F32) : BatteryMonitor :=
  { adc1_handle := none
    adc1_cali_handle := none
    adc_channel := gpio_num
    voltage_divider_ratio := divider_ratio }

/-- Method `InitializeADC`: result and the object afterwards. -/
def InitializeADC (d : AdcDriver) (m : BatteryMonitor) : Bool × BatteryMonitor :=
  match d.adc_oneshot_new_unit with
  | none => (false, m)
  | some h =>
    if d.adc_oneshot_config_channel then (true, { m with adc1_handle := some h })
    else (false, { m with adc1_handle := some h })

/-- Method `InitializeCalibration`: result and the object afterwards. -/
def InitializeCalibration (d : AdcDriver) (m : BatteryMonitor) : Bool × BatteryMonitor :=
  match d.adc_cali_create_scheme_curve_fitting with
  | none => (false, m)
  | some h => (true, { m with adc1_cali_handle := some h })

/-- Method `Init`: `InitializeADC() && InitializeCalibration()`, the right operand
evaluated only when the left one is true. -/
def Init (d : AdcDriver) (m : BatteryMonitor) : Bool × BatteryMonitor :=
  if (InitializeADC d m).1 then InitializeCalibration d (InitializeADC d m).2
  else (false, (InitializeADC d m).2)

/-- Method `GetVoltage`; it assigns no data member. -/
def GetVoltage (d : AdcDriver) (m : BatteryMonitor) : F32 :=
  if m.adc1_handle = none ∨ m.adc1_cali_handle = none then F32.lit 0
  else
    match d.adc_oneshot_read with
    | none => F32.lit 0
    | some raw_value =>
      match d.adc_cali_raw_to_voltage raw_value with
      | none => F32.lit 0
      | some voltage_mv =>
        F32.mul (F32.div (F32.ofInt voltage_mv) (F32.lit 1000)) m.voltage_divider_ratio

/-- The linear interpolation computed by `GetBatteryPercentage` from the voltage. -/
def percentageRaw (voltage : F32) : F32 :=
  F32.mul
    (F32.div (F32.sub voltage BATTERY_MIN_VOLTAGE)
      (F32.sub BATTERY_MAX_VOLTAGE BATTERY_MIN_VOLTAGE))
    (F32.lit 100)

/-- The two guards `if (percentage > 100.0f) ...; if (percentage < 0.0f) ...`. -/
def percentageClamped (percentage : F32) : F32 :=
  let p1 := if F32.lt (F32.lit 100) percentage then F32.lit 100 else percentage
  if F32.lt p1 (F32.lit 0) then F32.lit 0 else p1

/-- Body of `GetBatteryPercentage` after the call of `GetVoltage`. -/
def percentageOfVoltage (voltage : F32) : Option ℤ :=
  F32.toInt (percentageClamped (percentageRaw voltage))

/-- Written from the specification, section 4.5: the linear interpolation, "truncated
toward zero after clamping" to `[0, 100]`. -/
def percentageTruncAfterClamp (voltage : F32) : Option ℤ :=
  (F32.clamp 0 100 (percentageRaw voltage)).map F32.truncToZero

/-- Written from the specification, section 4.5:
`clamp(0, 100, round((actualVoltage − 3.3) / (4.2 − 3.3) × 100))`. -/
def percentageClampOfRound (voltage : F32) : Option ℤ :=
  F32.clampRounded roundNearest 0 100 (percentageRaw voltage)

/-- The formula of section 4.5 with the rounding to nearest replaced by the
truncation toward zero: `clamp(0, 100, trunc(...))`. -/
def percentageClampOfTrunc (voltage : F32) : Option ℤ :=
  F32.clampRounded F32.truncToZero 0 100 (percentageRaw voltage)

/-- Method `GetBatteryPercentage`. -/
def GetBatteryPercentage (d : AdcDriver) (m : BatteryMonitor) : Option ℤ :=
  percentageOfVoltage (GetVoltage d m)

end BatteryMonitor

/-! ## `oled_display.cc` -/

/-- Enumeration `MemoryOptimizationLevel`. -/
inductive MemoryOptimizationLevel where
  | NONE
  | LOW
  | MEDIUM
  | HIGH
  deriving DecidableEq, Repr

/-- Long modes of an LVGL label that the display uses. -/
inductive LabelLongMode where
  | WRAP
  | SCROLL
  | SCROLL_CIRCULAR
  deriving DecidableEq, Repr

/-- What the display reads and writes of an LVGL object (`lv_obj_t`): the text of a
label (LVGL keeps its own copy), the flag `LV_OBJ_FLAG_HIDDEN`, the long mode, and the
animation time and the opacity of its style. -/
structure LvObj where
  text : List Char
  hidden : Bool
  long_mode : LabelLongMode
  anim_time : ℕ
  opa : ℕ
  deriving DecidableEq

/-- The string literals of `font_awesome_symbols.h` that the display uses.  The header
is not among the sources, so the literals are taken as given. -/
structure FontAwesomeSymbols where
  FONT_AWESOME_SIGNAL_1 : List Char
  FONT_AWESOME_BATTERY_FULL : List Char
  FONT_AWESOME_BATTERY_3 : List Char
  FONT_AWESOME_BATTERY_2 : List Char
  FONT_AWESOME_BATTERY_1 : List Char
  FONT_AWESOME_BATTERY_EMPTY : List Char
  FONT_AWESOME_AI_CHIP : List Char
  FONT_AWESOME_EMOJI_THINKING : List Char
  FONT_AWESOME_EMOJI_HAPPY : List Char
  FONT_AWESOME_EMOJI_NEUTRAL : List Char
  FONT_AWESOME_EMOJI_SAD : List Char
  FONT_AWESOME_EMOJI_LAUGHING : List Char
  FONT_AWESOME_EMOJI_CONFUSED : List Char
  FONT_AWESOME_EMOJI_ANGRY : List Char
  FONT_AWESOME_EMOJI_SURPRISED : List Char
  FONT_AWESOME_EMOJI_SLEEPY : List Char

/-- Size of `static char static_buffer[40]`. -/
def STATIC_BUFFER_SIZE : ℕ := 40

/-- Size of `static char medium_buffer[80]`. -/
def MEDIUM_BUFFER_SIZE : ℕ := 80

/-- The data of `OledDisplay` that its methods read and write after the set-up of the
user interface; a null pointer is `none`.  `network_label_`, `emotion_label_` and
`chat_message_label_` are members of the base class `Display`.  The two
function-local static buffers of `SetChatMessage` keep their bytes between calls and
are therefore part of the state.  `refresh_counter_` and `refresh_rate_` are
`uint8_t`.  `render_passes` is not a data member: it counts the calls of
`lv_timer_handler` made by `Refresh`. -/
structure OledDisplay where
  network_label_ : Option LvObj
  emotion_label_ : Option LvObj
  chat_message_label_ : Option LvObj
  content_right_ : Option LvObj
  battery_label_ : Option LvObj
  battery_percentage_label_ : Option LvObj
  battery_monitor_ : Option BatteryMonitor
  network_icon_ : Option (List Char)
  memory_optimization_level_ : MemoryOptimizationLevel
  animations_enabled_ : Bool
  simplified_emotion_mode_ : Bool
  display_locked_ : Bool
  locked_ : Bool
  refresh_counter_ : ℕ
  refresh_rate_ : ℕ
  dirty_ : Bool
  static_buffer : List Char
  medium_buffer : List Char
  render_passes : ℕ

/-- The buffers have the sizes of their declarations. -/
def OledDisplay.BuffersSized (s : OledDisplay) : Prop :=
  s.static_buffer.length = STATIC_BUFFER_SIZE ∧ s.medium_buffer.length = MEDIUM_BUFFER_SIZE

instance (s : OledDisplay) : Decidable s.BuffersSized := by
  unfold OledDisplay.BuffersSized
  infer_instance

/-- Byte `content[i]` of a C string given by the bytes in front of its terminator: the
terminator `'\0'` is read at the end. -/
def charAt (content : List Char) (i : ℕ) : Char := content.getD i '\x00'

/-- The C string that starts a sequence of bytes: the bytes in front of the first
`'\0'`. -/
def cstr (bytes : List Char) : List Char := bytes.takeWhile (fun c => c ≠ '\x00')

/-- Expression `(content[i] == '\n') ? ' ' : content[i]`. -/
def replaceNewline (c : Char) : Char := if c = '\n' then ' ' else c

/-- Assignment `buffer[i] = c`; a write outside the array is undefined (`none`). -/
def writeAt (buffer : List Char) (i : ℕ) (c : Char) : Option (List Char) :=
  if i < buffer.length then some (buffer.set i c) else none

/-- Loop `for (; i < max_chars && content[i] != '\0'; i++) buffer[i] = ...`, entered
with the current `i` and buffer; it yields the final `i` and buffer. -/
def copyChars (content : List Char) (max_chars : ℕ) (i : ℕ) (buffer : List Char) :
    Option (ℕ × List Char) :=
  if i < max_chars then
    if charAt content i ≠ '\x00' then
      match writeAt buffer i (replaceNewline (charAt content i)) with
      | none => none
      | some buffer1 => copyChars content max_chars (i + 1) buffer1
    else some (i, buffer)
  else some (i, buffer)
termination_by max_chars - i

/-- Statements of the HIGH and MEDIUM branches from `int max_chars = sizeof(buffer) - 4`
to `buffer[i] = '\0'`, on a buffer declared with `size` bytes: the buffer afterwards. -/
def stageBounded (size : ℕ) (content : List Char) (buffer : List Char) :
    Option (List Char) :=
  match copyChars content (size - 4) 0 buffer with
  | none => none
  | some (i, buffer1) =>
    if charAt content i ≠ '\x00' then
      match writeAt buffer1 i '.' with
      | none => none
      | some buffer2 =>
        match writeAt buffer2 (i + 1) '.' with
        | none => none
        | some buffer3 =>
          match writeAt buffer3 (i + 2) '.' with
          | none => none
          | some buffer4 => writeAt buffer4 (i + 3) '\x00'
    else writeAt buffer1 i '\x00'

/-- Condition `content == nullptr || content[0] == '\0'`. -/
def nullOrEmpty (content : Option (List Char)) : Bool :=
  match content with
  | none => true
  | some c => decide (charAt c 0 = '\x00')

/-- Call `lv_obj_add_flag(obj, LV_OBJ_FLAG_HIDDEN)`. -/
def LvObj.add_flag_hidden (o : LvObj) : LvObj := { o with hidden := true }

/-- Call `lv_obj_clear_flag(obj, LV_OBJ_FLAG_HIDDEN)`. -/
def LvObj.clear_flag_hidden (o : LvObj) : LvObj := { o with hidden := false }

namespace OledDisplay

/-- Method `SetChatMessage(role, content)`, which does not use `role`: the display
afterwards, `none` when the
call runs into undefined behaviour (a write outside a buffer, or the construction of
a `std::string` from a null pointer).  The lock guard and `vTaskDelay` change no data
member.  `std::replace` is the map of `replaceNewline`. -/
def SetChatMessage (s : OledDisplay) (_role content : Option (List Char)) :
    Option OledDisplay :=
  match s.chat_message_label_ with
  | none => some s
  | some label =>
    if s.memory_optimization_level_ = MemoryOptimizationLevel.HIGH then
      if nullOrEmpty content then
        some { s with content_right_ := s.content_right_.map LvObj.add_flag_hidden }
      else
        match stageBounded STATIC_BUFFER_SIZE (content.getD []) s.static_buffer with
        | none => none
        | some buffer =>
          some { s with
            static_buffer := buffer
            chat_message_label_ := some { label with
              long_mode := LabelLongMode.SCROLL, text := cstr buffer, anim_time := 8000 }
            content_right_ := s.content_right_.map LvObj.clear_flag_hidden }
    else if s.memory_optimization_level_ = MemoryOptimizationLevel.MEDIUM then
      if nullOrEmpty content then
        some { s with content_right_ := s.content_right_.map LvObj.add_flag_hidden }
      else
        match stageBounded MEDIUM_BUFFER_SIZE (content.getD []) s.medium_buffer with
        | none => none
        | some buffer =>
          some { s with
            medium_buffer := buffer
            chat_message_label_ := some { label with
              long_mode := LabelLongMode.SCROLL, text := cstr buffer, anim_time := 5000 }
            content_right_ := s.content_right_.map LvObj.clear_flag_hidden }
    else
      match content with
      | none => none
      | some c =>
        match s.content_right_ with
        | none =>
          some { s with
            chat_message_label_ := some { label with
              long_mode := LabelLongMode.SCROLL_CIRCULAR
              text := (cstr c).map replaceNewline } }
        | some right =>
          if nullOrEmpty content then
            some { s with
              chat_message_label_ := some { label with
                long_mode := LabelLongMode.SCROLL_CIRCULAR }
              content_right_ := some right.add_flag_hidden }
          else
            some { s with
              chat_message_label_ := some { label with
                long_mode := LabelLongMode.SCROLL_CIRCULAR
                text := (cstr c).map replaceNewline }
              content_right_ := some right.clear_flag_hidden }

/-- Text of the chat message label, empty when the label does not exist. -/
def chatText (s : OledDisplay) : List Char :=
  match s.chat_message_label_ with
  | none => []
  | some label => label.text

end OledDisplay

/-- A display at a given level whose chat label and right content pane exist, the pane
hidden, the static buffers still zero-initialised. -/
def OledDisplay.sample (level : MemoryOptimizationLevel) : OledDisplay :=
  { network_label_ := none
    emotion_label_ := none
    chat_message_label_ :=
      some { text := [], hidden := false, long_mode := LabelLongMode.WRAP, anim_time := 0,
             opa := 255 }
    content_right_ :=
      some { text := [], hidden := true, long_mode := LabelLongMode.WRAP, anim_time := 0,
             opa := 255 }
    battery_label_ := none
    battery_percentage_label_ := none
    battery_monitor_ := none
    network_icon_ := none
    memory_optimization_level_ := level
    animations_enabled_ := true
    simplified_emotion_mode_ := false
    display_locked_ := false
    locked_ := false
    refresh_counter_ := 0
    refresh_rate_ := 1
    dirty_ := false
    static_buffer := List.replicate 40 '\x00'
    medium_buffer := List.replicate 80 '\x00'
    render_passes := 0 }

/-- A content of 50 characters. -/
def fiftyChars : List Char := "01234567890123456789012345678901234567890123456789".toList

/-- Call `lv_label_set_text(label, text)`: the label takes a copy of the C string. -/
def LvObj.set_text (o : LvObj) (text : List Char) : LvObj := { o with text := cstr text }

/-- Constant `LV_OPA_100` of LVGL. -/
def LV_OPA_100 : ℕ := 255

/-- An object as LVGL creates it, before the display configures it. -/
def LvObj.created : LvObj :=
  { text := [], hidden := false, long_mode := LabelLongMode.WRAP, anim_time := 0,
    opa := 255 }

/-- Written from the specification, section 4.1: the row of a level in the table of
profiles, as (refresh divisor, animations, simplified icon mode). -/
def profileRow : MemoryOptimizationLevel → ℕ × Bool × Bool
  | MemoryOptimizationLevel.NONE => (1, true, false)
  | MemoryOptimizationLevel.LOW => (2, true, false)
  | MemoryOptimizationLevel.MEDIUM => (3, false, false)
  | MemoryOptimizationLevel.HIGH => (5, false, true)

namespace OledDisplay

/-- The in-class initialisers of the data members, before the body of the
constructor runs. -/
def initial : OledDisplay :=
  { network_label_ := none
    emotion_label_ := none
    chat_message_label_ := none
    content_right_ := none
    battery_label_ := none
    battery_percentage_label_ := none
    battery_monitor_ := none
    network_icon_ := none
    memory_optimization_level_ := MemoryOptimizationLevel.NONE
    animations_enabled_ := true
    simplified_emotion_mode_ := false
    display_locked_ := false
    locked_ := false
    refresh_counter_ := 0
    refresh_rate_ := 1
    dirty_ := false
    static_buffer := List.replicate STATIC_BUFFER_SIZE '\x00'
    medium_buffer := List.replicate MEDIUM_BUFFER_SIZE '\x00'
    render_passes := 0 }

/-- Method `SetupUI_128x64`, as far as the modelled objects go: their creation, texts,
hidden flags and long modes, and the assignment of `network_icon_`.  `scroll_anim`
is the value of `lv_anim_speed_clamped(60, 300, 60000)`. -/
def SetupUI_128x64 (fa : FontAwesomeSymbols) (scroll_anim : ℕ) (s : OledDisplay) :
    OledDisplay :=
  { s with
    network_label_ := some (LvObj.created.set_text fa.FONT_AWESOME_BATTERY_FULL)
    network_icon_ := some fa.FONT_AWESOME_BATTERY_FULL
    battery_label_ := some (LvObj.created.set_text [])
    battery_percentage_label_ := some (LvObj.created.set_text []).add_flag_hidden
    emotion_label_ := some (LvObj.created.set_text fa.FONT_AWESOME_AI_CHIP)
    content_right_ := some LvObj.created.add_flag_hidden
    chat_message_label_ :=
      some { LvObj.created.set_text [] with
        long_mode := LabelLongMode.SCROLL_CIRCULAR
        anim_time := if s.animations_enabled_ then scroll_anim else 0 } }

/-- Method `SetupUI_128x32`, as far as the modelled objects go; this layout has no
`content_right_`. -/
def SetupUI_128x32 (fa : FontAwesomeSymbols) (scroll_anim : ℕ) (s : OledDisplay) :
    OledDisplay :=
  { s with
    emotion_label_ := some (LvObj.created.set_text fa.FONT_AWESOME_AI_CHIP)
    network_label_ := some (LvObj.created.set_text fa.FONT_AWESOME_BATTERY_FULL)
    network_icon_ := some fa.FONT_AWESOME_BATTERY_FULL
    battery_label_ := some (LvObj.created.set_text [])
    battery_percentage_label_ := some (LvObj.created.set_text []).add_flag_hidden
    chat_message_label_ :=
      some { LvObj.created.set_text [] with
        long_mode := LabelLongMode.SCROLL_CIRCULAR
        anim_time := if s.animations_enabled_ then scroll_anim else 0 } }

/-- Constructor `OledDisplay(...)`: `display_added` tells whether `lvgl_port_add_disp`
returned a display; without one the constructor returns before the set-up. -/
def new (fa : FontAwesomeSymbols) (display_added : Bool) (height : ℤ) (scroll_anim : ℕ) :
    OledDisplay :=
  if display_added then
    let s1 := if height = 64 then SetupUI_128x64 fa scroll_anim initial
      else SetupUI_128x32 fa scroll_anim initial
    match s1.network_label_ with
    | none => s1
    | some label =>
      { s1 with
        network_icon_ := some fa.FONT_AWESOME_SIGNAL_1
        network_label_ := some (label.set_text fa.FONT_AWESOME_SIGNAL_1) }
  else initial

/-- Method `Lock(timeout_ms)`: the answer of `lvgl_port_lock`; no data member changes. -/
def Lock (s : OledDisplay) (_timeout_ms : ℤ) (lvgl_port_lock : Bool) : Bool × OledDisplay :=
  (lvgl_port_lock, s)

/-- Method `Unlock()`: a call of `lvgl_port_unlock`; no data member changes. -/
def Unlock (s : OledDisplay) : OledDisplay := s

/-- Method `Refresh()`.  Both branches on the level call `lv_timer_handler` once; the
time measurement and `vTaskDelay` change no data member. -/
def Refresh (fa : FontAwesomeSymbols) (s : OledDisplay) : OledDisplay :=
  if s.locked_ = false then s
  else
    if (s.refresh_counter_ + 1) % 256 < s.refresh_rate_ then
      { s with refresh_counter_ := (s.refresh_counter_ + 1) % 256 }
    else
      { s with
        refresh_counter_ := 0
        dirty_ := false
        render_passes := s.render_passes + 1
        emotion_label_ :=
          if s.simplified_emotion_mode_ then
            s.emotion_label_.map (fun label => { label with opa := LV_OPA_100 })
          else s.emotion_label_
        network_label_ :=
          s.network_label_.map (fun label =>
            if nullOrEmpty s.network_icon_ then
              label.clear_flag_hidden.set_text fa.FONT_AWESOME_SIGNAL_1
            else label.clear_flag_hidden.set_text (s.network_icon_.getD [])) }

/-- Method `SetRefreshRate(rate)`; the argument is converted to `uint8_t`. -/
def SetRefreshRate (s : OledDisplay) (rate : ℕ) : OledDisplay :=
  { s with refresh_rate_ := if rate % 256 = 0 then 1 else rate % 256 }

/-- Method `EnableAnimations(enable)`. -/
def EnableAnimations (s : OledDisplay) (enable : Bool) : OledDisplay :=
  { s with animations_enabled_ := enable }

/-- Method `SetSimplifiedEmotionMode(simplified)`. -/
def SetSimplifiedEmotionMode (s : OledDisplay) (simplified : Bool) : OledDisplay :=
  { s with simplified_emotion_mode_ := simplified }

/-- Method `SetMemoryOptimizationLevel(level)`. -/
def SetMemoryOptimizationLevel (s : OledDisplay) (level : MemoryOptimizationLevel) :
    OledDisplay :=
  match level with
  | MemoryOptimizationLevel.NONE =>
    { s with
      memory_optimization_level_ := level
      animations_enabled_ := true
      simplified_emotion_mode_ := false
      refresh_rate_ := 1 }
  | MemoryOptimizationLevel.LOW =>
    { s with
      memory_optimization_level_ := level
      animations_enabled_ := true
      simplified_emotion_mode_ := false
      refresh_rate_ := 2 }
  | MemoryOptimizationLevel.MEDIUM =>
    { s with
      memory_optimization_level_ := level
      animations_enabled_ := false
      simplified_emotion_mode_ := false
      refresh_rate_ := 3 }
  | MemoryOptimizationLevel.HIGH =>
    { s with
      memory_optimization_level_ := level
      animations_enabled_ := false
      simplified_emotion_mode_ := true
      refresh_rate_ := 5 }

/-- Method `IsDisplayLocked()`. -/
def IsDisplayLocked (s : OledDisplay) : Bool := s.locked_

/-- The icon that `SetEmotion` chooses below HIGH, by the chain of `strcmp`. -/
def emotionIcon (fa : FontAwesomeSymbols) (emotion : List Char) : List Char :=
  if cstr emotion = "thinking".toList then fa.FONT_AWESOME_EMOJI_THINKING
  else if cstr emotion = "happy".toList then fa.FONT_AWESOME_EMOJI_HAPPY
  else if cstr emotion = "neutral".toList then fa.FONT_AWESOME_EMOJI_NEUTRAL
  else if cstr emotion = "sad".toList then fa.FONT_AWESOME_EMOJI_SAD
  else if cstr emotion = "excited".toList then fa.FONT_AWESOME_EMOJI_LAUGHING
  else if cstr emotion = "confused".toList then fa.FONT_AWESOME_EMOJI_CONFUSED
  else if cstr emotion = "angry".toList then fa.FONT_AWESOME_EMOJI_ANGRY
  else if cstr emotion = "surprised".toList then fa.FONT_AWESOME_EMOJI_SURPRISED
  else if cstr emotion = "curious".toList then fa.FONT_AWESOME_EMOJI_THINKING
  else if cstr emotion = "sleepy".toList then fa.FONT_AWESOME_EMOJI_SLEEPY
  else fa.FONT_AWESOME_AI_CHIP

/-- Method `SetEmotion(emotion)`; `strcmp` on a null pointer is undefined (`none`). -/
def SetEmotion (fa : FontAwesomeSymbols) (s : OledDisplay) (emotion : Option (List Char)) :
    Option OledDisplay :=
  match s.emotion_label_ with
  | none => some s
  | some label =>
    if s.memory_optimization_level_ = MemoryOptimizationLevel.HIGH then
      some { s with emotion_label_ := some (label.set_text fa.FONT_AWESOME_AI_CHIP) }
    else
      match emotion with
      | none => none
      | some e => some { s with emotion_label_ := some (label.set_text (emotionIcon fa e)) }

/-- The icon that `UpdateBatteryDisplay` chooses for a percentage. -/
def batteryIcon (fa : FontAwesomeSymbols) (percentage : ℤ) : List Char :=
  if percentage ≥ 80 then fa.FONT_AWESOME_BATTERY_FULL
  else if percentage ≥ 60 then fa.FONT_AWESOME_BATTERY_3
  else if percentage ≥ 40 then fa.FONT_AWESOME_BATTERY_2
  else if percentage ≥ 20 then fa.FONT_AWESOME_BATTERY_1
  else fa.FONT_AWESOME_BATTERY_EMPTY

/-- Method `UpdateBatteryDisplay()`, with the driver that answers the battery monitor;
`none` when `GetBatteryPercentage` is undefined.  The flushes of regions of the panel
change no data member. -/
def UpdateBatteryDisplay (fa : FontAwesomeSymbols) (d : AdcDriver) (s : OledDisplay) :
    Option OledDisplay :=
  match s.battery_monitor_, s.battery_label_ with
  | some monitor, some battery =>
    match BatteryMonitor.GetBatteryPercentage d monitor with
    | none => none
    | some percentage =>
      match s.network_label_ with
      | none =>
        some { s with
          battery_label_ := some (battery.set_text (batteryIcon fa percentage))
          battery_percentage_label_ :=
            s.battery_percentage_label_.map LvObj.add_flag_hidden }
      | some network =>
        some { s with
          battery_label_ := some (battery.set_text (batteryIcon fa percentage))
          battery_percentage_label_ :=
            s.battery_percentage_label_.map LvObj.add_flag_hidden
          network_icon_ :=
            if nullOrEmpty s.network_icon_ then some fa.FONT_AWESOME_SIGNAL_1
            else s.network_icon_
          network_label_ :=
            some (network.set_text
              (if nullOrEmpty s.network_icon_ then fa.FONT_AWESOME_SIGNAL_1
               else s.network_icon_.getD [])).clear_flag_hidden }
  | _, _ => some s

/-- Method `SetBatteryMonitor(monitor)`. -/
def SetBatteryMonitor (fa : FontAwesomeSymbols) (d : AdcDriver) (s : OledDisplay)
    (monitor : Option BatteryMonitor) : Option OledDisplay :=
  match monitor, s.battery_label_ with
  | some _, some _ => UpdateBatteryDisplay fa d { s with battery_monitor_ := monitor }
  | _, _ => some { s with battery_monitor_ := monitor }

/-- Method `SetNetworkIcon(icon)`.  The full flush of the panel changes no data
member. -/
def SetNetworkIcon (fa : FontAwesomeSymbols) (s : OledDisplay) (icon : Option (List Char)) :
    OledDisplay :=
  match s.network_label_ with
  | none => s
  | some label =>
    { s with
      network_icon_ :=
        if nullOrEmpty icon then some fa.FONT_AWESOME_BATTERY_FULL else icon
      network_label_ :=
        some (label.set_text
          (if nullOrEmpty icon then fa.FONT_AWESOME_BATTERY_FULL
           else icon.getD [])).clear_flag_hidden }

end OledDisplay

/-- Constructor `SilicoreC3Oled(...)`: the constructor of `OledDisplay`, then
`SetMemoryOptimizationLevel(HIGH)` and `SetRefreshRate(10)`. -/
def SilicoreC3Oled.new (fa : FontAwesomeSymbols) (display_added : Bool) (height : ℤ)
    (scroll_anim : ℕ) : OledDisplay :=
  ((OledDisplay.new fa display_added height scroll_anim).SetMemoryOptimizationLevel
    MemoryOptimizationLevel.HIGH).SetRefreshRate 10

/-- A call of a method of `OledDisplay`, with the answers of the collaborators it
consults. -/
inductive DisplayCall where
  | Lock (timeout_ms : ℤ) (lvgl_port_lock : Bool)
  | Unlock
  | SetChatMessage (role content : Option (List Char))
  | SetEmotion (emotion : Option (List Char))
  | SetNetworkIcon (icon : Option (List Char))
  | UpdateBatteryDisplay (d : AdcDriver)
  | SetBatteryMonitor (d : AdcDriver) (monitor : Option BatteryMonitor)
  | SetMemoryOptimizationLevel (level : MemoryOptimizationLevel)
  | SetRefreshRate (rate : ℕ)
  | EnableAnimations (enable : Bool)
  | SetSimplifiedEmotionMode (simplified : Bool)
  | Refresh

namespace OledDisplay

/-- The display after one call; `none` when the call is undefined. -/
def call (fa : FontAwesomeSymbols) (s : OledDisplay) : DisplayCall → Option OledDisplay
  | DisplayCall.Lock timeout_ms granted => some (s.Lock timeout_ms granted).2
  | DisplayCall.Unlock => some s.Unlock
  | DisplayCall.SetChatMessage role content => s.SetChatMessage role content
  | DisplayCall.SetEmotion emotion => SetEmotion fa s emotion
  | DisplayCall.SetNetworkIcon icon => some (SetNetworkIcon fa s icon)
  | DisplayCall.UpdateBatteryDisplay d => UpdateBatteryDisplay fa d s
  | DisplayCall.SetBatteryMonitor d monitor => SetBatteryMonitor fa d s monitor
  | DisplayCall.SetMemoryOptimizationLevel level => some (s.SetMemoryOptimizationLevel level)
  | DisplayCall.SetRefreshRate rate => some (s.SetRefreshRate rate)
  | DisplayCall.EnableAnimations enable => some (s.EnableAnimations enable)
  | DisplayCall.SetSimplifiedEmotionMode simplified =>
    some (s.SetSimplifiedEmotionMode simplified)
  | DisplayCall.Refresh => some (Refresh fa s)

/-- The display after a sequence of calls, each of them defined. -/
def calls (fa : FontAwesomeSymbols) (s : OledDisplay) : List DisplayCall → Option OledDisplay
  | [] => some s
  | c :: cs =>
    match call fa s c with
    | none => none
    | some s1 => calls fa s1 cs

/-- Text of the network label, empty when the label does not exist. -/
def networkText (s : OledDisplay) : List Char :=
  match s.network_label_ with
  | none => []
  | some label => label.text

end OledDisplay

/-- A display at HIGH with its divisor 5 that is dirty and whose `locked_` is set, as
`Refresh` requires. -/
def OledDisplay.heldSample : OledDisplay :=
  { OledDisplay.sample MemoryOptimizationLevel.HIGH with
    locked_ := true
    refresh_rate_ := 5
    dirty_ := true }

/-- A display at HIGH that is dirty, with a counter of 4 under a divisor of 5, whose
`locked_` is not set. -/
def OledDisplay.idleSample : OledDisplay :=
  { OledDisplay.sample MemoryOptimizationLevel.HIGH with
    refresh_counter_ := 4
    refresh_rate_ := 5
    dirty_ := true }

/-- The flag `locked_` is not set, the refresh counter is 0, `Refresh` has performed no
render pass, and the refresh divisor is at least 1. -/
def OledDisplay.Idle (s : OledDisplay) : Prop :=
  s.locked_ = false ∧ s.refresh_counter_ = 0 ∧ s.render_passes = 0 ∧ 1 ≤ s.refresh_rate_

/-- Stand-ins for the literals of `font_awesome_symbols.h`, pairwise different. -/
def FontAwesomeSymbols.sample : FontAwesomeSymbols :=
  { FONT_AWESOME_SIGNAL_1 := "signal-1".toList
    FONT_AWESOME_BATTERY_FULL := "battery-full".toList
    FONT_AWESOME_BATTERY_3 := "battery-3".toList
    FONT_AWESOME_BATTERY_2 := "battery-2".toList
    FONT_AWESOME_BATTERY_1 := "battery-1".toList
    FONT_AWESOME_BATTERY_EMPTY := "battery-empty".toList
    FONT_AWESOME_AI_CHIP := "ai-chip".toList
    FONT_AWESOME_EMOJI_THINKING := "thinking".toList
    FONT_AWESOME_EMOJI_HAPPY := "happy".toList
    FONT_AWESOME_EMOJI_NEUTRAL := "neutral".toList
    FONT_AWESOME_EMOJI_SAD := "sad".toList
    FONT_AWESOME_EMOJI_LAUGHING := "laughing".toList
    FONT_AWESOME_EMOJI_CONFUSED := "confused".toList
    FONT_AWESOME_EMOJI_ANGRY := "angry".toList
    FONT_AWESOME_EMOJI_SURPRISED := "surprised".toList
    FONT_AWESOME_EMOJI_SLEEPY := "sleepy".toList }

/-! ## Rounding: auxiliary facts -/

theorem floor_le_roundHalfEven (q : ℚ) : ⌊q⌋ ≤ roundHalfEven q := by
  unfold roundHalfEven
  split_ifs <;> omega

theorem roundHalfEven_le_floor_succ (q : ℚ) : roundHalfEven q ≤ ⌊q⌋ + 1 := by
  unfold roundHalfEven
  split_ifs <;> omega

theorem roundHalfEven_intCast (n : ℤ) : roundHalfEven (n : ℚ) = n := by
  unfold roundHalfEven
  simp

theorem roundHalfEven_mono {x y : ℚ} (h : x ≤ y) : roundHalfEven x ≤ roundHalfEven y := by
  rcases lt_or_eq_of_le (Int.floor_mono h) with hlt | heq
  · calc roundHalfEven x ≤ ⌊x⌋ + 1 := roundHalfEven_le_floor_succ x
      _ ≤ ⌊y⌋ := hlt
      _ ≤ roundHalfEven y := floor_le_roundHalfEven y
  · unfold roundHalfEven
    rw [← heq]
    split_ifs <;> first | omega | (exfalso; linarith)

theorem roundHalfEven_eq_of_near {q : ℚ} {n : ℤ} (h1 : (n : ℚ) - 1 / 2 < q)
    (h2 : q < (n : ℚ) + 1 / 2) : roundHalfEven q = n := by
  unfold roundHalfEven
  have hfl : (⌊q⌋ : ℚ) ≤ q := Int.floor_le q
  have hfu : q < (⌊q⌋ : ℚ) + 1 := Int.lt_floor_add_one q
  have h3 : (n : ℚ) - 2 < (⌊q⌋ : ℚ) := by linarith
  have h4 : (⌊q⌋ : ℚ) < (n : ℚ) + 1 := by linarith
  have h5 : n - 2 < ⌊q⌋ := by exact_mod_cast h3
  have h6 : ⌊q⌋ < n + 1 := by exact_mod_cast h4
  have h7 : ⌊q⌋ = n - 1 ∨ ⌊q⌋ = n := by omega
  rcases h7 with h7 | h7
  · have h8 : (⌊q⌋ : ℚ) = (n : ℚ) - 1 := by rw [h7]; push_cast; ring
    split_ifs <;> first | omega | (exfalso; linarith)
  · have h8 : (⌊q⌋ : ℚ) = (n : ℚ) := by rw [h7]
    split_ifs <;> first | omega | (exfalso; linarith)

theorem two_zpow_pos (e : ℤ) : (0 : ℚ) < (2 : ℚ) ^ e := zpow_pos (by norm_num) e

theorem ulpExp_mono {x y : ℚ} (hx : 0 < x) (h : x ≤ y) : ulpExp x ≤ ulpExp y := by
  unfold ulpExp
  have := Int.log_mono_right (b := 2) hx h
  omega

theorem lt_two_zpow_ulpExp (q : ℚ) : q < (2 : ℚ) ^ (ulpExp q + 24) := by
  have h := Int.lt_zpow_succ_log_self (b := 2) (by norm_num) q
  rw [Nat.cast_ofNat] at h
  refine lt_of_lt_of_le h (zpow_le_zpow_right₀ (by norm_num) ?_)
  unfold ulpExp
  omega

theorem two_zpow_ulpExp_le {q : ℚ} (hq : 0 < q) (he : -149 < ulpExp q) :
    (2 : ℚ) ^ (ulpExp q + 23) ≤ q := by
  have h := Int.zpow_log_le_self (b := 2) (by norm_num) hq
  rw [Nat.cast_ofNat] at h
  have : ulpExp q + 23 = Int.log 2 q := by
    unfold ulpExp at he ⊢
    omega
  rw [this]
  exact h

theorem roundMag_nonneg {q : ℚ} (hq : 0 ≤ q) : 0 ≤ roundMag q := by
  unfold roundMag
  have h0 : (0 : ℤ) ≤ roundHalfEven (q / (2 : ℚ) ^ ulpExp q) := by
    have h := roundHalfEven_mono (div_nonneg hq (two_zpow_pos (ulpExp q)).le)
    have hz : roundHalfEven (0 : ℚ) = 0 := by
      have := roundHalfEven_intCast 0
      simpa using this
    rw [hz] at h
    exact h
  exact mul_nonneg (by exact_mod_cast h0) (two_zpow_pos _).le

theorem ulpExp_ge (q : ℚ) : -149 ≤ ulpExp q := by
  unfold ulpExp
  omega

theorem roundMag_le_grid {q : ℚ} {n : ℤ} (h : q ≤ (n : ℚ) * (2 : ℚ) ^ ulpExp q) :
    roundMag q ≤ (n : ℚ) * (2 : ℚ) ^ ulpExp q := by
  unfold roundMag
  have hdiv : q / (2 : ℚ) ^ ulpExp q ≤ (n : ℚ) := (div_le_iff₀ (two_zpow_pos _)).mpr h
  have hr := roundHalfEven_mono hdiv
  rw [roundHalfEven_intCast] at hr
  exact mul_le_mul_of_nonneg_right (by exact_mod_cast hr) (two_zpow_pos _).le

theorem grid_le_roundMag {q : ℚ} {n : ℤ} (h : (n : ℚ) * (2 : ℚ) ^ ulpExp q ≤ q) :
    (n : ℚ) * (2 : ℚ) ^ ulpExp q ≤ roundMag q := by
  unfold roundMag
  have hdiv : (n : ℚ) ≤ q / (2 : ℚ) ^ ulpExp q := (le_div_iff₀ (two_zpow_pos _)).mpr h
  have hr := roundHalfEven_mono hdiv
  rw [roundHalfEven_intCast] at hr
  exact mul_le_mul_of_nonneg_right (by exact_mod_cast hr) (two_zpow_pos _).le

theorem roundMag_zero : roundMag 0 = 0 := by
  unfold roundMag
  have hz : roundHalfEven (0 : ℚ) = 0 := by
    have := roundHalfEven_intCast 0
    simpa using this
  simp [hz]

theorem roundMag_le_top (q : ℚ) : roundMag q ≤ (2 : ℚ) ^ (ulpExp q + 24) := by
  have h : q ≤ ((2 ^ 24 : ℤ) : ℚ) * (2 : ℚ) ^ ulpExp q := by
    have := (lt_two_zpow_ulpExp q).le
    rw [zpow_add₀ (by norm_num : (2 : ℚ) ≠ 0)] at this
    calc q ≤ (2 : ℚ) ^ ulpExp q * (2 : ℚ) ^ (24 : ℤ) := this
      _ = ((2 ^ 24 : ℤ) : ℚ) * (2 : ℚ) ^ ulpExp q := by norm_num [mul_comm]
  have := roundMag_le_grid h
  calc roundMag q ≤ ((2 ^ 24 : ℤ) : ℚ) * (2 : ℚ) ^ ulpExp q := this
    _ = (2 : ℚ) ^ (ulpExp q + 24) := by
      rw [zpow_add₀ (by norm_num : (2 : ℚ) ≠ 0)]; norm_num [mul_comm]

theorem bottom_le_roundMag {q : ℚ} (hq : 0 < q) (he : -149 < ulpExp q) :
    (2 : ℚ) ^ (ulpExp q + 23) ≤ roundMag q := by
  have h : ((2 ^ 23 : ℤ) : ℚ) * (2 : ℚ) ^ ulpExp q ≤ q := by
    have := two_zpow_ulpExp_le hq he
    rw [zpow_add₀ (by norm_num : (2 : ℚ) ≠ 0)] at this
    calc ((2 ^ 23 : ℤ) : ℚ) * (2 : ℚ) ^ ulpExp q
        = (2 : ℚ) ^ ulpExp q * (2 : ℚ) ^ (23 : ℤ) := by norm_num [mul_comm]
      _ ≤ q := this
  have := grid_le_roundMag h
  calc (2 : ℚ) ^ (ulpExp q + 23)
      = ((2 ^ 23 : ℤ) : ℚ) * (2 : ℚ) ^ ulpExp q := by
        rw [zpow_add₀ (by norm_num : (2 : ℚ) ≠ 0)]; norm_num [mul_comm]
    _ ≤ roundMag q := this

theorem roundMag_mono {x y : ℚ} (hx : 0 ≤ x) (h : x ≤ y) : roundMag x ≤ roundMag y := by
  rcases eq_or_lt_of_le hx with h0 | hpos
  · rw [← h0, roundMag_zero]
    exact roundMag_nonneg (hx.trans h)
  · rcases eq_or_lt_of_le (ulpExp_mono hpos h) with he | he
    · unfold roundMag
      rw [← he]
      have hdiv : x / (2 : ℚ) ^ ulpExp x ≤ y / (2 : ℚ) ^ ulpExp x :=
        div_le_div_of_nonneg_right h (two_zpow_pos _).le
      exact mul_le_mul_of_nonneg_right (by exact_mod_cast roundHalfEven_mono hdiv)
        (two_zpow_pos _).le
    · have hy : 0 < y := lt_of_lt_of_le hpos h
      have hge := ulpExp_ge x
      calc roundMag x ≤ (2 : ℚ) ^ (ulpExp x + 24) := roundMag_le_top x
        _ ≤ (2 : ℚ) ^ (ulpExp y + 23) := zpow_le_zpow_right₀ (by norm_num) (by omega)
        _ ≤ roundMag y := bottom_le_roundMag hy (by omega)

theorem roundQ_mono {x y : ℚ} (h : x ≤ y) : roundQ x ≤ roundQ y := by
  unfold roundQ
  split_ifs with hx hy hy
  · exact neg_le_neg (roundMag_mono (by linarith) (by linarith))
  · have h1 := roundMag_nonneg (q := -x) (by linarith)
    have h2 := roundMag_nonneg (q := y) (by linarith)
    linarith
  · exfalso; linarith
  · exact roundMag_mono (by linarith) h

theorem roundQ_zero : roundQ 0 = 0 := by
  unfold roundQ
  simp [roundMag_zero]

/-- Evaluation of `roundMag` at a magnitude of known binade and nearest grid point. -/
theorem roundMag_eval {q : ℚ} (k n : ℤ) (hk : -126 ≤ k) (h1 : (2 : ℚ) ^ k ≤ q)
    (h2 : q < (2 : ℚ) ^ (k + 1)) (h3 : (n : ℚ) - 1 / 2 < q / (2 : ℚ) ^ (k - 23))
    (h4 : q / (2 : ℚ) ^ (k - 23) < (n : ℚ) + 1 / 2) :
    roundMag q = (n : ℚ) * (2 : ℚ) ^ (k - 23) := by
  have hq : 0 < q := lt_of_lt_of_le (two_zpow_pos k) h1
  have hlog : Int.log 2 q = k := by
    apply le_antisymm
    · have := (Int.lt_zpow_iff_log_lt (b := 2) (by norm_num) hq (x := k + 1)).mp
        (by rw [Nat.cast_ofNat]; exact h2)
      omega
    · exact (Int.zpow_le_iff_le_log (b := 2) (by norm_num) hq).mp
        (by rw [Nat.cast_ofNat]; exact h1)
  have he : ulpExp q = k - 23 := by
    unfold ulpExp
    rw [hlog]
    omega
  unfold roundMag
  rw [he, roundHalfEven_eq_of_near h3 h4]

namespace F32

theorem round_ne_nan (q : ℚ) : round q ≠ nan := by
  unfold round
  split_ifs <;> simp

theorem round_of_bounds {q : ℚ} (h1 : -maxFinite ≤ roundQ q) (h2 : roundQ q ≤ maxFinite) :
    round q = fin (roundQ q) := by
  unfold round
  rw [if_neg (not_lt.mpr h2), if_neg (not_lt.mpr h1)]

/-- Evaluation of `round` at a positive normal value of known binade and nearest
grid point. -/
theorem round_eval {q : ℚ} (k n : ℤ) (hk : -126 ≤ k) (h1 : (2 : ℚ) ^ k ≤ q)
    (h2 : q < (2 : ℚ) ^ (k + 1)) (h3 : (n : ℚ) - 1 / 2 < q / (2 : ℚ) ^ (k - 23))
    (h4 : q / (2 : ℚ) ^ (k - 23) < (n : ℚ) + 1 / 2)
    (h5 : (n : ℚ) * (2 : ℚ) ^ (k - 23) ≤ maxFinite) :
    round q = fin ((n : ℚ) * (2 : ℚ) ^ (k - 23)) := by
  have hq : 0 < q := lt_of_lt_of_le (two_zpow_pos k) h1
  have hr : roundQ q = (n : ℚ) * (2 : ℚ) ^ (k - 23) := by
    unfold roundQ
    rw [if_neg (not_lt.mpr hq.le)]
    exact roundMag_eval k n hk h1 h2 h3 h4
  have hnn : 0 ≤ roundQ q := by
    unfold roundQ
    rw [if_neg (not_lt.mpr hq.le)]
    exact roundMag_nonneg hq.le
  have hmax : (0 : ℚ) ≤ maxFinite := by unfold maxFinite; norm_num
  rw [round_of_bounds (by linarith) (by rw [hr]; exact h5), hr]

theorem round_zero : round 0 = fin 0 := by
  have hmax : (0 : ℚ) ≤ maxFinite := by unfold maxFinite; norm_num
  rw [round_of_bounds (by rw [roundQ_zero]; linarith) (by rw [roundQ_zero]; exact hmax),
    roundQ_zero]

theorem sub_fin (x y : ℚ) : sub (fin x) (fin y) = round (x - y) := rfl

theorem mul_fin (x y : ℚ) : mul (fin x) (fin y) = round (x * y) := rfl

theorem div_fin (x y : ℚ) (hy : y ≠ 0) : div (fin x) (fin y) = round (x / y) := by
  unfold div
  simp [hy]

end F32

theorem lit_zero : F32.lit 0 = F32.fin 0 := F32.round_zero

theorem lit_hundred : F32.lit 100 = F32.fin 100 := by
  unfold F32.lit
  rw [F32.round_eval 6 13107200 (by norm_num) (by norm_num) (by norm_num) (by norm_num)
    (by norm_num) (by unfold maxFinite; norm_num)]
  norm_num

theorem lit_thousand : F32.lit 1000 = F32.fin 1000 := by
  unfold F32.lit
  rw [F32.round_eval 9 16384000 (by norm_num) (by norm_num) (by norm_num) (by norm_num)
    (by norm_num) (by unfold maxFinite; norm_num)]
  norm_num

theorem BATTERY_MIN_VOLTAGE_eq : BATTERY_MIN_VOLTAGE = F32.fin (13841203 / 4194304) := by
  unfold BATTERY_MIN_VOLTAGE F32.lit
  rw [F32.round_eval 1 13841203 (by norm_num) (by norm_num) (by norm_num) (by norm_num)
    (by norm_num) (by unfold maxFinite; norm_num)]
  norm_num

theorem BATTERY_MAX_VOLTAGE_eq : BATTERY_MAX_VOLTAGE = F32.fin (4404019 / 1048576) := by
  unfold BATTERY_MAX_VOLTAGE F32.lit
  rw [F32.round_eval 2 8808038 (by norm_num) (by norm_num) (by norm_num) (by norm_num)
    (by norm_num) (by unfold maxFinite; norm_num)]
  norm_num

theorem battery_span_eq :
    F32.sub BATTERY_MAX_VOLTAGE BATTERY_MIN_VOLTAGE = F32.fin (3774873 / 4194304) := by
  rw [BATTERY_MAX_VOLTAGE_eq, BATTERY_MIN_VOLTAGE_eq, F32.sub_fin]
  rw [F32.round_eval (-1) 15099492 (by norm_num) (by norm_num) (by norm_num) (by norm_num)
    (by norm_num) (by unfold maxFinite; norm_num)]
  norm_num

namespace F32

theorem maxFinite_nonneg : (0 : ℚ) ≤ maxFinite := by unfold maxFinite; norm_num

theorem round_le_round {x y : ℚ} (h : x ≤ y) : le (round x) (round y) = true := by
  have hm := roundQ_mono h
  have h0 := maxFinite_nonneg
  unfold round
  split_ifs <;> simp [le] <;> linarith

theorem ninf_le_round (q : ℚ) : le (inf true) (round q) = true := by
  unfold round
  split_ifs <;> simp [le]

theorem round_le_pinf (q : ℚ) : le (round q) (inf false) = true := by
  unfold round
  split_ifs <;> simp [le]

theorem lift_mono {f : ℚ → ℚ} (hf : ∀ x y, x ≤ y → f x ≤ f y) {u v : F32}
    (h : le u v = true) : le (lift f u) (lift f v) = true := by
  cases u with
  | nan => simp [le] at h
  | inf s =>
    cases v with
    | nan => simp [le] at h
    | inf t => simpa [lift] using h
    | fin y =>
      have hs : s = true := by simpa [le] using h
      subst hs
      exact ninf_le_round _
  | fin x =>
    cases v with
    | nan => simp [le] at h
    | inf t =>
      have ht : t = false := by simpa [le] using h
      subst ht
      exact round_le_pinf _
    | fin y =>
      have hxy : x ≤ y := by simpa [le] using h
      exact round_le_round (hf x y hxy)

theorem lift_fin (f : ℚ → ℚ) (x : ℚ) : lift f (fin x) = round (f x) := rfl

theorem sub_fin_eq_lift (c : ℚ) (v : F32) : sub v (fin c) = lift (fun x => x - c) v := by
  cases v <;> rfl

theorem div_fin_eq_lift {c : ℚ} (hc : 0 < c) (v : F32) :
    div v (fin c) = lift (fun x => x / c) v := by
  cases v with
  | nan => rfl
  | inf s => simp [div, lift, not_lt.mpr hc.le]
  | fin x => simp [div, lift, hc.ne']

theorem mul_fin_eq_lift {c : ℚ} (hc : 0 < c) (v : F32) :
    mul v (fin c) = lift (fun x => x * c) v := by
  cases v with
  | nan => rfl
  | inf s => simp [mul, lift, not_lt.mpr hc.le, hc.ne']
  | fin x => simp [mul, lift]

theorem ne_nan_of_le_left {u v : F32} (h : le u v = true) : u ≠ nan := by
  rintro rfl
  simp [le] at h

theorem ne_nan_of_le_right {u v : F32} (h : le u v = true) : v ≠ nan := by
  rintro rfl
  cases u <;> simp [le] at h

theorem le_refl_of_ne_nan {v : F32} (h : v ≠ nan) : le v v = true := by
  cases v with
  | nan => exact absurd rfl h
  | inf s => cases s <;> simp [le]
  | fin x => simp [le]

theorem clamp_mono (lo hi : ℚ) (hlh : lo ≤ hi) {u v : F32} (h : le u v = true) :
    ∃ a b, clamp lo hi u = some a ∧ clamp lo hi v = some b ∧ a ≤ b ∧
      lo ≤ a ∧ a ≤ hi ∧ lo ≤ b ∧ b ≤ hi := by
  cases u with
  | nan => simp [le] at h
  | inf s =>
    cases v with
    | nan => simp [le] at h
    | inf t =>
      refine ⟨_, _, rfl, rfl, ?_⟩
      cases s <;> cases t <;> simp [le] at h ⊢ <;> exact hlh
    | fin y =>
      have hs : s = true := by simpa [le] using h
      subst hs
      refine ⟨_, _, rfl, rfl, ?_⟩
      simp [hlh]
  | fin x =>
    cases v with
    | nan => simp [le] at h
    | inf t =>
      have ht : t = false := by simpa [le] using h
      subst ht
      refine ⟨_, _, rfl, rfl, ?_⟩
      simp [hlh]
    | fin y =>
      have hxy : x ≤ y := by simpa [le] using h
      exact ⟨_, _, rfl, rfl, max_le_max le_rfl (min_le_min le_rfl hxy), le_max_left _ _,
        max_le hlh (min_le_left _ _), le_max_left _ _, max_le hlh (min_le_left _ _)⟩

end F32

/-! ## Battery percentage: auxiliary facts -/

namespace BatteryMonitor

theorem percentageRaw_eq_lift (v : F32) :
    percentageRaw v =
      F32.lift (fun x => x * 100)
        (F32.lift (fun x => x / (3774873 / 4194304))
          (F32.lift (fun x => x - 13841203 / 4194304) v)) := by
  unfold percentageRaw
  rw [battery_span_eq, lit_hundred, F32.mul_fin_eq_lift (by norm_num),
    F32.div_fin_eq_lift (by norm_num), BATTERY_MIN_VOLTAGE_eq, F32.sub_fin_eq_lift]

theorem percentageRaw_mono {u v : F32} (h : F32.le u v = true) :
    F32.le (percentageRaw u) (percentageRaw v) = true := by
  rw [percentageRaw_eq_lift, percentageRaw_eq_lift]
  apply F32.lift_mono (fun x y hxy => by linarith)
  apply F32.lift_mono (fun x y hxy => div_le_div_of_nonneg_right hxy (by norm_num))
  exact F32.lift_mono (fun x y hxy => by linarith) h

theorem percentageClamped_eq_clamp {w : F32} {c : ℚ} (h : F32.clamp 0 100 w = some c) :
    percentageClamped w = F32.fin c := by
  unfold percentageClamped
  rw [lit_hundred, lit_zero]
  cases w with
  | nan => simp [F32.clamp] at h
  | inf s =>
    cases s <;> simp [F32.clamp] at h <;> subst h <;> simp [F32.lt]
  | fin x =>
    simp only [F32.clamp, Option.some.injEq] at h
    subst h
    by_cases h1 : (100 : ℚ) < x
    · simp [F32.lt, h1, min_eq_left h1.le]
    · have h1' : x ≤ 100 := not_lt.mp h1
      by_cases h2 : x < 0
      · simp [F32.lt, h1, h2, min_eq_right h1', max_eq_left h2.le]
      · simp [F32.lt, h1, h2, min_eq_right h1', max_eq_right (not_lt.mp h2)]

theorem toInt_fin_of_unit {c : ℚ} (h0 : 0 ≤ c) (h1 : c ≤ 100) :
    F32.toInt (F32.fin c) = some ⌊c⌋ ∧ F32.truncToZero c = ⌊c⌋ ∧ 0 ≤ ⌊c⌋ ∧ ⌊c⌋ ≤ 100 := by
  have ht : F32.truncToZero c = ⌊c⌋ := by
    unfold F32.truncToZero
    rw [if_pos h0]
  have hlo : 0 ≤ ⌊c⌋ := Int.floor_nonneg.mpr h0
  have hhi : ⌊c⌋ ≤ 100 := by
    have : ⌊c⌋ ≤ ⌊(100 : ℚ)⌋ := Int.floor_mono h1
    have h100 : ⌊(100 : ℚ)⌋ = 100 := by simp
    omega
  refine ⟨?_, ht, hlo, hhi⟩
  show (if -2 ^ 31 ≤ F32.truncToZero c ∧ F32.truncToZero c < 2 ^ 31
    then some (F32.truncToZero c) else none) = some ⌊c⌋
  rw [ht, if_pos ⟨by omega, by omega⟩]

theorem percentageOfVoltage_eq_spec (v : F32) :
    percentageOfVoltage v = percentageTruncAfterClamp v := by
  unfold percentageOfVoltage percentageTruncAfterClamp
  by_cases hn : percentageRaw v = F32.nan
  · rw [hn]
    simp [percentageClamped, F32.lt, F32.clamp, F32.toInt]
  · obtain ⟨c, _, hc, _, _, h0, h100, _, _⟩ :=
      F32.clamp_mono 0 100 (by norm_num) (F32.le_refl_of_ne_nan hn)
    rw [percentageClamped_eq_clamp hc, hc]
    obtain ⟨ht, htr, _, _⟩ := toInt_fin_of_unit h0 h100
    rw [ht, Option.map_some', htr]

theorem percentageOfVoltage_of_clamp {v : F32} {c : ℚ}
    (hc : F32.clamp 0 100 (percentageRaw v) = some c) :
    percentageOfVoltage v = some ⌊c⌋ ∧ 0 ≤ c ∧ c ≤ 100 := by
  have hn : percentageRaw v ≠ F32.nan := by
    intro h
    rw [h] at hc
    simp [F32.clamp] at hc
  obtain ⟨c', _, hc', _, _, h0, h100, _, _⟩ :=
    F32.clamp_mono 0 100 (by norm_num) (F32.le_refl_of_ne_nan hn)
  have : c' = c := by
    rw [hc] at hc'
    exact (Option.some.inj hc').symm
  subst this
  obtain ⟨_, htr, _, _⟩ := toInt_fin_of_unit h0 h100
  rw [percentageOfVoltage_eq_spec, percentageTruncAfterClamp, hc, Option.map_some', htr]
  exact ⟨rfl, h0, h100⟩

/-- The percentage of two ordered voltages: both defined, in range and ordered. -/
theorem percentageOfVoltage_mono_aux {u v : F32} (h : F32.le u v = true) :
    ∃ p q : ℤ, percentageOfVoltage u = some p ∧ percentageOfVoltage v = some q ∧ p ≤ q ∧
      0 ≤ p ∧ q ≤ 100 := by
  obtain ⟨a, b, ha, hb, hab, _, _, _, _⟩ :=
    F32.clamp_mono 0 100 (by norm_num) (percentageRaw_mono h)
  obtain ⟨hpa, ha0, ha1⟩ := percentageOfVoltage_of_clamp ha
  obtain ⟨hpb, hb0, hb1⟩ := percentageOfVoltage_of_clamp hb
  obtain ⟨_, _, hfa, _⟩ := toInt_fin_of_unit ha0 ha1
  obtain ⟨_, _, _, hfb⟩ := toInt_fin_of_unit hb0 hb1
  exact ⟨⌊a⌋, ⌊b⌋, hpa, hpb, Int.floor_mono hab, hfa, hfb⟩

end BatteryMonitor

namespace BatteryMonitor

theorem percentageRaw_at_min_real :
    percentageRaw (F32.fin (33 / 10)) = F32.fin (5825423 / 1099511627776) := by
  have e1 : F32.round ((33 : ℚ) / 10 - 13841203 / 4194304) =
      F32.fin (13421773 / 281474976710656) := by
    rw [F32.round_eval (-25) 13421773 (by norm_num) (by norm_num) (by norm_num)
      (by norm_num) (by norm_num) (by unfold maxFinite; norm_num)]
    norm_num
  have e2 : F32.round ((13421773 : ℚ) / 281474976710656 / (3774873 / 4194304)) =
      F32.fin (14913083 / 281474976710656) := by
    rw [F32.round_eval (-25) 14913083 (by norm_num) (by norm_num) (by norm_num)
      (by norm_num) (by norm_num) (by unfold maxFinite; norm_num)]
    norm_num
  have e3 : F32.round ((14913083 : ℚ) / 281474976710656 * 100) =
      F32.fin (5825423 / 1099511627776) := by
    rw [F32.round_eval (-18) 11650846 (by norm_num) (by norm_num) (by norm_num)
      (by norm_num) (by norm_num) (by unfold maxFinite; norm_num)]
    norm_num
  rw [percentageRaw_eq_lift, F32.lift_fin, e1, F32.lift_fin, e2, F32.lift_fin, e3]

theorem round_one : F32.round 1 = F32.fin 1 := by
  rw [F32.round_eval 0 8388608 (by norm_num) (by norm_num) (by norm_num) (by norm_num)
    (by norm_num) (by unfold maxFinite; norm_num)]
  norm_num

theorem percentageRaw_at_max : percentageRaw BATTERY_MAX_VOLTAGE = F32.fin 100 := by
  unfold percentageRaw
  rw [battery_span_eq, F32.div_fin _ _ (by norm_num)]
  have h1 : ((3774873 : ℚ) / 4194304) / (3774873 / 4194304) = 1 := by norm_num
  rw [h1, round_one, lit_hundred, F32.mul_fin]
  have h2 : (1 : ℚ) * 100 = 100 := by norm_num
  rw [h2]
  exact lit_hundred

theorem percentageOfVoltage_low {v : F32} (h : F32.le v (F32.fin (33 / 10)) = true) :
    percentageOfVoltage v = some 0 := by
  have hm := percentageRaw_mono h
  rw [percentageRaw_at_min_real] at hm
  obtain ⟨a, b, ha, hb, hab, ha0, _, _, _⟩ :=
    F32.clamp_mono 0 100 (by norm_num) hm
  have hb1 : b < 1 := by
    simp only [F32.clamp, Option.some.injEq] at hb
    rw [← hb]
    norm_num
  obtain ⟨hp, _, _⟩ := percentageOfVoltage_of_clamp ha
  rw [hp]
  have : ⌊a⌋ = 0 := Int.floor_eq_zero_iff.mpr ⟨ha0, lt_of_le_of_lt hab hb1⟩
  rw [this]

theorem percentageOfVoltage_high {v : F32} (h : F32.le BATTERY_MAX_VOLTAGE v = true) :
    percentageOfVoltage v = some 100 := by
  have hm := percentageRaw_mono h
  rw [percentageRaw_at_max] at hm
  obtain ⟨a, b, ha, hb, hab, _, _, _, hb1⟩ :=
    F32.clamp_mono 0 100 (by norm_num) hm
  have ha1 : a = 100 := by
    simp only [F32.clamp, Option.some.injEq] at ha
    rw [← ha]
    norm_num
  obtain ⟨hp, _, _⟩ := percentageOfVoltage_of_clamp hb
  rw [hp]
  have hb100 : b = 100 := le_antisymm hb1 (ha1 ▸ hab)
  rw [hb100]
  simp

end BatteryMonitor

theorem roundQ_two_pow_31 : roundQ (2 ^ 31) = 2 ^ 31 := by
  unfold roundQ
  rw [if_neg (by norm_num)]
  rw [roundMag_eval 31 8388608 (by norm_num) (by norm_num) (by norm_num) (by norm_num)
    (by norm_num)]
  norm_num

theorem roundQ_neg_two_pow_31 : roundQ (-2 ^ 31) = -2 ^ 31 := by
  unfold roundQ
  rw [if_pos (by norm_num), neg_neg]
  rw [roundMag_eval 31 8388608 (by norm_num) (by norm_num) (by norm_num) (by norm_num)
    (by norm_num)]
  norm_num

theorem F32.round_of_int_range {q : ℚ} (h1 : -2 ^ 31 ≤ q) (h2 : q ≤ 2 ^ 31) :
    F32.round q = F32.fin (roundQ q) ∧ -2 ^ 31 ≤ roundQ q ∧ roundQ q ≤ 2 ^ 31 := by
  have hlo := roundQ_mono h1
  have hhi := roundQ_mono h2
  rw [roundQ_neg_two_pow_31] at hlo
  rw [roundQ_two_pow_31] at hhi
  have hmax : (2 : ℚ) ^ 31 ≤ maxFinite := by unfold maxFinite; norm_num
  exact ⟨F32.round_of_bounds (by linarith) (by linarith), hlo, hhi⟩

namespace BatteryMonitor

theorem GetVoltage_ne_nan (d : AdcDriver) (m : BatteryMonitor) (r : ℚ)
    (hr : m.voltage_divider_ratio = F32.fin r)
    (hmv : ∀ raw mv, d.adc_cali_raw_to_voltage raw = some mv → -2 ^ 31 ≤ mv ∧ mv < 2 ^ 31) :
    GetVoltage d m ≠ F32.nan := by
  unfold GetVoltage
  split_ifs with h0
  · exact F32.round_ne_nan 0
  · cases hread : d.adc_oneshot_read with
    | none => exact F32.round_ne_nan 0
    | some raw =>
      dsimp only
      cases hcal : d.adc_cali_raw_to_voltage raw with
      | none => exact F32.round_ne_nan 0
      | some mv =>
        dsimp only
        obtain ⟨hlo, hhi⟩ := hmv raw mv hcal
        have hlo' : (-2 ^ 31 : ℚ) ≤ (mv : ℚ) := by exact_mod_cast hlo
        have hhi' : (mv : ℚ) ≤ 2 ^ 31 := by exact_mod_cast hhi.le
        obtain ⟨e1, b1, b2⟩ := F32.round_of_int_range hlo' hhi'
        have hlo2 : (-2 ^ 31 : ℚ) ≤ roundQ mv / 1000 := by
          rw [le_div_iff₀ (by norm_num)]; linarith
        have hhi2 : roundQ mv / 1000 ≤ (2 : ℚ) ^ 31 := by
          rw [div_le_iff₀ (by norm_num)]; linarith
        obtain ⟨e2, _, _⟩ := F32.round_of_int_range hlo2 hhi2
        show F32.mul (F32.div (F32.ofInt mv) (F32.lit 1000)) m.voltage_divider_ratio ≠ F32.nan
        rw [hr, F32.ofInt, e1, lit_thousand, F32.div_fin _ _ (by norm_num), e2, F32.mul_fin]
        exact F32.round_ne_nan _

end BatteryMonitor

/-! ## Battery monitor: properties -/

namespace BatteryMonitor

theorem percentageOfVoltage_zero : percentageOfVoltage (F32.fin 0) = some 0 :=
  percentageOfVoltage_low (by simp [F32.le]; norm_num)

theorem percentageOfVoltage_min : percentageOfVoltage BATTERY_MIN_VOLTAGE = some 0 := by
  apply percentageOfVoltage_low
  rw [BATTERY_MIN_VOLTAGE_eq]
  simp [F32.le]
  norm_num

theorem percentageOfVoltage_max : percentageOfVoltage BATTERY_MAX_VOLTAGE = some 100 := by
  apply percentageOfVoltage_high
  rw [BATTERY_MAX_VOLTAGE_eq]
  simp [F32.le]

theorem GetVoltage_of_success {d : AdcDriver} {m : BatteryMonitor} {raw mv : ℤ}
    (h1 : m.adc1_handle ≠ none) (h2 : m.adc1_cali_handle ≠ none)
    (hread : d.adc_oneshot_read = some raw)
    (hcal : d.adc_cali_raw_to_voltage raw = some mv) :
    GetVoltage d m =
      F32.mul (F32.div (F32.ofInt mv) (F32.lit 1000)) m.voltage_divider_ratio := by
  unfold GetVoltage
  rw [if_neg (by simp [h1, h2]), hread]
  dsimp only
  rw [hcal]

theorem lit_two : F32.lit 2 = F32.fin 2 := by
  unfold F32.lit
  rw [F32.round_eval 1 8388608 (by norm_num) (by norm_num) (by norm_num) (by norm_num)
    (by norm_num) (by unfold maxFinite; norm_num)]
  norm_num

theorem voltage_1650 :
    F32.mul (F32.div (F32.ofInt 1650) (F32.lit 1000)) (F32.lit 2) = BATTERY_MIN_VOLTAGE := by
  have e1 : F32.round ((1650 : ℤ) : ℚ) = F32.fin 1650 := by
    rw [F32.round_eval 10 13516800 (by norm_num) (by norm_num) (by norm_num) (by norm_num)
      (by norm_num) (by unfold maxFinite; norm_num)]
    norm_num
  have e2 : F32.round ((1650 : ℚ) / 1000) = F32.fin (13841203 / 8388608) := by
    rw [F32.round_eval 0 13841203 (by norm_num) (by norm_num) (by norm_num) (by norm_num)
      (by norm_num) (by unfold maxFinite; norm_num)]
    norm_num
  have e3 : F32.round ((13841203 : ℚ) / 8388608 * 2) = F32.fin (13841203 / 4194304) := by
    rw [F32.round_eval 1 13841203 (by norm_num) (by norm_num) (by norm_num) (by norm_num)
      (by norm_num) (by unfold maxFinite; norm_num)]
    norm_num
  rw [F32.ofInt, e1, lit_thousand, F32.div_fin _ _ (by norm_num), e2, lit_two, F32.mul_fin, e3,
    BATTERY_MIN_VOLTAGE_eq]

theorem voltage_2100 :
    F32.mul (F32.div (F32.ofInt 2100) (F32.lit 1000)) (F32.lit 2) = BATTERY_MAX_VOLTAGE := by
  have e1 : F32.round ((2100 : ℤ) : ℚ) = F32.fin 2100 := by
    rw [F32.round_eval 11 8601600 (by norm_num) (by norm_num) (by norm_num) (by norm_num)
      (by norm_num) (by unfold maxFinite; norm_num)]
    norm_num
  have e2 : F32.round ((2100 : ℚ) / 1000) = F32.fin (4404019 / 2097152) := by
    rw [F32.round_eval 1 8808038 (by norm_num) (by norm_num) (by norm_num) (by norm_num)
      (by norm_num) (by unfold maxFinite; norm_num)]
    norm_num
  have e3 : F32.round ((4404019 : ℚ) / 2097152 * 2) = F32.fin (4404019 / 1048576) := by
    rw [F32.round_eval 2 8808038 (by norm_num) (by norm_num) (by norm_num) (by norm_num)
      (by norm_num) (by unfold maxFinite; norm_num)]
    norm_num
  rw [F32.ofInt, e1, lit_thousand, F32.div_fin _ _ (by norm_num), e2, lit_two, F32.mul_fin, e3,
    BATTERY_MAX_VOLTAGE_eq]

theorem Init_fst_eq_false_iff (d : AdcDriver) (m : BatteryMonitor) :
    (Init d m).1 = false ↔
      (d.adc_oneshot_new_unit = none ∨ d.adc_oneshot_config_channel = false ∨
        d.adc_cali_create_scheme_curve_fitting = none) := by
  unfold Init InitializeADC InitializeCalibration
  cases d.adc_oneshot_new_unit <;> cases d.adc_oneshot_config_channel <;>
    cases d.adc_cali_create_scheme_curve_fitting <;> simp

theorem Init_failed_handle (d : AdcDriver) (gpio_num : ℤ) (divider_ratio : F32)
    (h : (Init d (new gpio_num divider_ratio)).1 = false) :
    (Init d (new gpio_num divider_ratio)).2.adc1_handle = none ∨
      (Init d (new gpio_num divider_ratio)).2.adc1_cali_handle = none := by
  revert h
  unfold Init InitializeADC InitializeCalibration new
  cases d.adc_oneshot_new_unit <;> cases d.adc_oneshot_config_channel <;>
    cases d.adc_cali_create_scheme_curve_fitting <;> simp

theorem Init_succeeded (d : AdcDriver) (gpio_num : ℤ) (divider_ratio : F32)
    (h : (Init d (new gpio_num divider_ratio)).1 = true) :
    (Init d (new gpio_num divider_ratio)).2.adc1_handle ≠ none ∧
      (Init d (new gpio_num divider_ratio)).2.adc1_cali_handle ≠ none ∧
      (Init d (new gpio_num divider_ratio)).2.voltage_divider_ratio = divider_ratio := by
  revert h
  unfold Init InitializeADC InitializeCalibration new
  cases d.adc_oneshot_new_unit <;> cases d.adc_oneshot_config_channel <;>
    cases d.adc_cali_create_scheme_curve_fitting <;> simp

theorem GetVoltage_of_null {d : AdcDriver} {m : BatteryMonitor}
    (h : m.adc1_handle = none ∨ m.adc1_cali_handle = none) : GetVoltage d m = F32.fin 0 := by
  unfold GetVoltage
  rw [if_pos h, lit_zero]

theorem GetVoltage_of_read_failed {d : AdcDriver} (m : BatteryMonitor)
    (h : d.adc_oneshot_read = none) : GetVoltage d m = F32.fin 0 := by
  unfold GetVoltage
  split_ifs
  · exact lit_zero
  · rw [h]
    exact lit_zero

theorem GetVoltage_of_cali_failed {d : AdcDriver} (m : BatteryMonitor) {raw : ℤ}
    (h : d.adc_oneshot_read = some raw) (hc : d.adc_cali_raw_to_voltage raw = none) :
    GetVoltage d m = F32.fin 0 := by
  unfold GetVoltage
  split_ifs
  · exact lit_zero
  · rw [h]
    dsimp only
    rw [hc]
    exact lit_zero

theorem GetBatteryPercentage_of_zero {d : AdcDriver} {m : BatteryMonitor}
    (h : GetVoltage d m = F32.fin 0) : GetBatteryPercentage d m = some 0 := by
  unfold GetBatteryPercentage
  rw [h]
  exact percentageOfVoltage_zero

end BatteryMonitor

namespace BatteryMonitor

/-- C1: for every voltage other than NaN, infinite ones included, the percentage is an
integer `p` with `0 ≤ p ≤ 100`; and for every finite divider ratio and every 32-bit
millivolt value reported by the calibration, failures of the driver calls included,
`GetVoltage` does not return NaN, so that `GetBatteryPercentage` returns such a `p`. -/
theorem GetBatteryPercentage_in_range :
    (∀ v : F32, v ≠ F32.nan → ∃ p : ℤ, percentageOfVoltage v = some p ∧ 0 ≤ p ∧ p ≤ 100) ∧
    (∀ (d : AdcDriver) (m : BatteryMonitor) (r : ℚ), m.voltage_divider_ratio = F32.fin r →
      (∀ raw mv, d.adc_cali_raw_to_voltage raw = some mv → -2 ^ 31 ≤ mv ∧ mv < 2 ^ 31) →
      GetVoltage d m ≠ F32.nan ∧
        ∃ p : ℤ, GetBatteryPercentage d m = some p ∧ 0 ≤ p ∧ p ≤ 100) := by
  have key : ∀ v : F32, v ≠ F32.nan →
      ∃ p : ℤ, percentageOfVoltage v = some p ∧ 0 ≤ p ∧ p ≤ 100 := by
    intro v hv
    obtain ⟨p, q, hp, hq, hpq, h0, h100⟩ :=
      percentageOfVoltage_mono_aux (F32.le_refl_of_ne_nan hv)
    have hqp : q = p := by
      rw [hp] at hq
      exact (Option.some.inj hq).symm
    exact ⟨p, hp, h0, hqp ▸ h100⟩
  exact ⟨key, fun d m r hr hmv =>
    ⟨GetVoltage_ne_nan d m r hr hmv, key _ (GetVoltage_ne_nan d m r hr hmv)⟩⟩

/-- Witness of C1: a reading of `-2 ^ 31` millivolts behind a divider of ratio
`2 ^ 100`. -/
theorem GetBatteryPercentage_in_range_witness :
    ∃ p : ℤ,
      GetBatteryPercentage (AdcDriver.steady (-2 ^ 31))
        { adc1_handle := some 1, adc1_cali_handle := some 2, adc_channel := 3,
          voltage_divider_ratio := F32.fin (2 ^ 100) } = some p ∧ 0 ≤ p ∧ p ≤ 100 :=
  (GetBatteryPercentage_in_range.2 (AdcDriver.steady (-2 ^ 31)) _ (2 ^ 100) rfl
    (by
      intro raw mv h
      simp only [AdcDriver.steady, Option.some.injEq] at h
      subst h
      norm_num)).2

/-- C2: a voltage at most 3.3 V gives 0 and a voltage at least 4.2 V gives 100, the
bounds included.  The lower bound is taken as the real number 3.3, which lies just
above the constant `3.3f`, and the upper bound as the constant `4.2f`, which lies
just below the real number 4.2: either reading of the bounds is covered. -/
theorem percentage_at_bounds :
    (∀ v : F32, F32.le v (F32.fin (33 / 10)) = true → percentageOfVoltage v = some 0) ∧
    (∀ v : F32, F32.le BATTERY_MAX_VOLTAGE v = true → percentageOfVoltage v = some 100) ∧
    F32.le BATTERY_MIN_VOLTAGE (F32.fin (33 / 10)) = true ∧
    F32.le BATTERY_MAX_VOLTAGE (F32.fin (42 / 10)) = true := by
  refine ⟨fun v h => percentageOfVoltage_low h, fun v h => percentageOfVoltage_high h, ?_, ?_⟩
  · rw [BATTERY_MIN_VOLTAGE_eq]
    simp [F32.le]
    norm_num
  · rw [BATTERY_MAX_VOLTAGE_eq]
    simp [F32.le]
    norm_num

/-- Witness of C2: the two constants themselves. -/
theorem percentage_at_bounds_witness :
    percentageOfVoltage BATTERY_MIN_VOLTAGE = some 0 ∧
      percentageOfVoltage BATTERY_MAX_VOLTAGE = some 100 :=
  ⟨percentage_at_bounds.1 BATTERY_MIN_VOLTAGE percentage_at_bounds.2.2.1,
    percentage_at_bounds.2.1 BATTERY_MAX_VOLTAGE
      (F32.le_refl_of_ne_nan (F32.round_ne_nan _))⟩

/-- C3: the percentage is monotonic non-decreasing in the voltage: for `v1 ≤ v2`
(infinite voltages included) both percentages are defined and the first is at most
the second. -/
theorem percentage_monotone (v1 v2 : F32) (h : F32.le v1 v2 = true) :
    ∃ p1 p2 : ℤ,
      percentageOfVoltage v1 = some p1 ∧ percentageOfVoltage v2 = some p2 ∧ p1 ≤ p2 := by
  obtain ⟨p, q, hp, hq, hpq, _, _⟩ := percentageOfVoltage_mono_aux h
  exact ⟨p, q, hp, hq, hpq⟩

/-- Witness of C3: 3.5 V and 3.75 V. -/
theorem percentage_monotone_witness :
    F32.le (F32.fin (7 / 2)) (F32.fin (15 / 4)) = true ∧
      ∃ p1 p2 : ℤ, percentageOfVoltage (F32.fin (7 / 2)) = some p1 ∧
        percentageOfVoltage (F32.fin (15 / 4)) = some p2 ∧ p1 ≤ p2 :=
  ⟨by simp [F32.le]; norm_num,
    percentage_monotone (F32.fin (7 / 2)) (F32.fin (15 / 4)) (by simp [F32.le]; norm_num)⟩

end BatteryMonitor

namespace BatteryMonitor

theorem lit_three_point_eight : F32.lit (38 / 10) = F32.fin (15938355 / 4194304) := by
  unfold F32.lit
  rw [F32.round_eval 1 15938355 (by norm_num) (by norm_num) (by norm_num) (by norm_num)
    (by norm_num) (by unfold maxFinite; norm_num)]
  norm_num

theorem percentageRaw_three_point_eight :
    percentageRaw (F32.lit (38 / 10)) = F32.fin (7281779 / 131072) := by
  have e1 : F32.round ((15938355 : ℚ) / 4194304 - 13841203 / 4194304) = F32.fin (1 / 2) := by
    rw [F32.round_eval (-1) 8388608 (by norm_num) (by norm_num) (by norm_num)
      (by norm_num) (by norm_num) (by unfold maxFinite; norm_num)]
    norm_num
  have e2 : F32.round ((1 : ℚ) / 2 / (3774873 / 4194304)) = F32.fin (9320677 / 16777216) := by
    rw [F32.round_eval (-1) 9320677 (by norm_num) (by norm_num) (by norm_num)
      (by norm_num) (by norm_num) (by unfold maxFinite; norm_num)]
    norm_num
  have e3 : F32.round ((9320677 : ℚ) / 16777216 * 100) = F32.fin (7281779 / 131072) := by
    rw [F32.round_eval 5 14563558 (by norm_num) (by norm_num) (by norm_num)
      (by norm_num) (by norm_num) (by unfold maxFinite; norm_num)]
    norm_num
  rw [lit_three_point_eight, percentageRaw_eq_lift, F32.lift_fin, e1, F32.lift_fin, e2,
    F32.lift_fin, e3]

theorem floor_eq_of_bounds {q : ℚ} {n : ℤ} (h1 : (n : ℚ) ≤ q) (h2 : q < (n : ℚ) + 1) :
    ⌊q⌋ = n := Int.floor_eq_iff.mpr ⟨h1, h2⟩

/-- Counterexample to C4: at the voltage `3.8f` (ratio 2.0, 1900 mV) the interpolation
is 55.55..., the code returns 55, and the formula with rounding to nearest gives 56,
whether the interpolation is computed in `float` or exactly. -/
theorem percentage_not_rounded_to_nearest :
    percentageOfVoltage (F32.lit (38 / 10)) = some 55 ∧
      percentageClampOfRound (F32.lit (38 / 10)) = some 56 ∧
      F32.lit (38 / 10) = F32.fin (15938355 / 4194304) ∧
      roundNearest (((15938355 : ℚ) / 4194304 - 33 / 10) / (42 / 10 - 33 / 10) * 100) = 56 ∧
      percentageOfVoltage (F32.lit (38 / 10)) ≠ percentageClampOfRound (F32.lit (38 / 10)) := by
  have hcode : percentageOfVoltage (F32.lit (38 / 10)) = some 55 := by
    have hc : F32.clamp 0 100 (percentageRaw (F32.lit (38 / 10))) =
        some (7281779 / 131072) := by
      rw [percentageRaw_three_point_eight]
      show some (max (0 : ℚ) (min 100 (7281779 / 131072))) = some (7281779 / 131072)
      rw [min_eq_right (by norm_num), max_eq_right (by norm_num)]
    rw [(percentageOfVoltage_of_clamp hc).1,
      floor_eq_of_bounds (n := 55) (by norm_num) (by norm_num)]
  have hspec : percentageClampOfRound (F32.lit (38 / 10)) = some 56 := by
    unfold percentageClampOfRound
    rw [percentageRaw_three_point_eight]
    show some (max (0 : ℤ) (min 100 (roundNearest (7281779 / 131072)))) = some 56
    have : roundNearest (7281779 / 131072) = 56 := by
      unfold roundNearest
      exact floor_eq_of_bounds (by norm_num) (by norm_num)
    rw [this]
    rfl
  refine ⟨hcode, hspec, lit_three_point_eight, ?_, ?_⟩
  · unfold roundNearest
    exact floor_eq_of_bounds (by norm_num) (by norm_num)
  · rw [hcode, hspec]
    decide

/-- C4, amended: for every voltage, `GetBatteryPercentage` equals
`clamp(0, 100, trunc((v - 3.3) / (4.2 - 3.3) * 100))`, where `trunc` discards the
fractional part (rounds toward zero) and the interpolation is the `float` expression
of the source. -/
theorem percentage_eq_clamp_of_trunc (v : F32) :
    percentageOfVoltage v = percentageClampOfTrunc v ∧
      ∀ d m, GetBatteryPercentage d m = percentageClampOfTrunc (GetVoltage d m) := by
  have key : ∀ w : F32, percentageOfVoltage w = percentageClampOfTrunc w := by
    intro w
    rw [percentageOfVoltage_eq_spec]
    unfold percentageTruncAfterClamp percentageClampOfTrunc
    cases percentageRaw w with
    | nan => rfl
    | inf s => cases s <;> simp [F32.clamp, F32.clampRounded, F32.truncToZero]
    | fin x =>
      simp only [F32.clamp, F32.clampRounded, Option.map_some', Option.some.injEq]
      unfold F32.truncToZero
      by_cases hx : 0 ≤ x
      · rw [if_pos hx, if_pos (le_max_left _ _), max_eq_right (le_min (by norm_num) hx)]
        have hfl : 0 ≤ ⌊x⌋ := Int.floor_nonneg.mpr hx
        by_cases h100 : x ≤ 100
        · have : ⌊x⌋ ≤ 100 := by
            have := Int.floor_mono h100
            simpa using this
          rw [min_eq_right h100, min_eq_right this, max_eq_right hfl]
        · have h100' : (100 : ℚ) ≤ x := (not_le.mp h100).le
          have : (100 : ℤ) ≤ ⌊x⌋ := by
            have := Int.floor_mono h100'
            simpa using this
          rw [min_eq_left h100', min_eq_left this]
          simp
      · have hx' : x ≤ 0 := (not_le.mp hx).le
        rw [if_neg hx, if_pos (le_max_left _ _)]
        have hc : ⌈x⌉ ≤ 0 := by
          have := Int.ceil_mono hx'
          simpa using this
        rw [min_eq_right (by linarith), max_eq_left hx', min_eq_right (by omega),
          max_eq_left hc]
        simp
  exact ⟨key v, fun d m => key _⟩

/-- C6: after a successful `Init` of an object constructed with a divider ratio, when
the raw read and the calibration both succeed, `GetVoltage` returns
`(voltage_mv / 1000.0f) * divider_ratio`, for every millivolt value and every ratio;
with ratio 2.0, 1650 mV gives `3.3f` and percentage 0, and 2100 mV gives `4.2f` and
percentage 100. -/
theorem GetVoltage_success (gpio_num : ℤ) (divider_ratio : F32) (d0 d : AdcDriver)
    (raw mv : ℤ) (hinit : (Init d0 (new gpio_num divider_ratio)).1 = true)
    (hread : d.adc_oneshot_read = some raw)
    (hcal : d.adc_cali_raw_to_voltage raw = some mv) :
    GetVoltage d (Init d0 (new gpio_num divider_ratio)).2 =
        F32.mul (F32.div (F32.ofInt mv) (F32.lit 1000)) divider_ratio ∧
      (divider_ratio = F32.lit 2 → mv = 1650 →
        GetVoltage d (Init d0 (new gpio_num divider_ratio)).2 = F32.lit (33 / 10) ∧
          GetBatteryPercentage d (Init d0 (new gpio_num divider_ratio)).2 = some 0) ∧
      (divider_ratio = F32.lit 2 → mv = 2100 →
        GetVoltage d (Init d0 (new gpio_num divider_ratio)).2 = F32.lit (42 / 10) ∧
          GetBatteryPercentage d (Init d0 (new gpio_num divider_ratio)).2 = some 100) := by
  obtain ⟨h1, h2, h3⟩ := Init_succeeded d0 gpio_num divider_ratio hinit
  have hv := GetVoltage_of_success h1 h2 hread hcal
  rw [h3] at hv
  refine ⟨hv, ?_, ?_⟩
  · intro hr hm
    have : GetVoltage d (Init d0 (new gpio_num divider_ratio)).2 = BATTERY_MIN_VOLTAGE := by
      rw [hv, hr, hm, voltage_1650]
    refine ⟨this, ?_⟩
    unfold GetBatteryPercentage
    rw [this]
    exact percentageOfVoltage_min
  · intro hr hm
    have : GetVoltage d (Init d0 (new gpio_num divider_ratio)).2 = BATTERY_MAX_VOLTAGE := by
      rw [hv, hr, hm, voltage_2100]
    refine ⟨this, ?_⟩
    unfold GetBatteryPercentage
    rw [this]
    exact percentageOfVoltage_max

/-- Witness of C6: ratio 2.0 and 1650 mV after a successful `Init`. -/
theorem GetVoltage_success_witness :
    GetVoltage (AdcDriver.steady 1650)
        (Init (AdcDriver.steady 0) (new 3 (F32.lit 2))).2 = F32.lit (33 / 10) ∧
      GetBatteryPercentage (AdcDriver.steady 1650)
        (Init (AdcDriver.steady 0) (new 3 (F32.lit 2))).2 = some 0 :=
  (GetVoltage_success 3 (F32.lit 2) (AdcDriver.steady 0) (AdcDriver.steady 1650) 0 1650
    rfl rfl rfl).2.1 rfl rfl

/-- C7: `GetVoltage` returns exactly 0.0 and `GetBatteryPercentage` returns 0 when `Init`
was never called on the constructed object, when `Init` returned false on it (which
happens exactly when the unit creation, the channel configuration or the calibration
scheme creation fails), when the raw read fails and when the conversion fails; after
a failed `Init` this holds for every later read, whatever the driver then answers. -/
theorem GetVoltage_sentinel (gpio_num : ℤ) (divider_ratio : F32) (d : AdcDriver) :
    (∀ d1, GetVoltage d1 (new gpio_num divider_ratio) = F32.fin 0 ∧
      GetBatteryPercentage d1 (new gpio_num divider_ratio) = some 0) ∧
    ((Init d (new gpio_num divider_ratio)).1 = false ↔
      (d.adc_oneshot_new_unit = none ∨ d.adc_oneshot_config_channel = false ∨
        d.adc_cali_create_scheme_curve_fitting = none)) ∧
    ((Init d (new gpio_num divider_ratio)).1 = false →
      ∀ d1, GetVoltage d1 (Init d (new gpio_num divider_ratio)).2 = F32.fin 0 ∧
        GetBatteryPercentage d1 (Init d (new gpio_num divider_ratio)).2 = some 0) ∧
    (∀ d1 m, d1.adc_oneshot_read = none →
      GetVoltage d1 m = F32.fin 0 ∧ GetBatteryPercentage d1 m = some 0) ∧
    (∀ d1 m raw, d1.adc_oneshot_read = some raw → d1.adc_cali_raw_to_voltage raw = none →
      GetVoltage d1 m = F32.fin 0 ∧ GetBatteryPercentage d1 m = some 0) := by
  refine ⟨fun d1 => ?_, Init_fst_eq_false_iff d _, fun h d1 => ?_, fun d1 m h => ?_,
    fun d1 m raw h hc => ?_⟩
  · have hv : GetVoltage d1 (new gpio_num divider_ratio) = F32.fin 0 :=
      GetVoltage_of_null (Or.inl rfl)
    exact ⟨hv, GetBatteryPercentage_of_zero hv⟩
  · have hv := GetVoltage_of_null (d := d1) (Init_failed_handle d gpio_num divider_ratio h)
    exact ⟨hv, GetBatteryPercentage_of_zero hv⟩
  · have hv := GetVoltage_of_read_failed m h
    exact ⟨hv, GetBatteryPercentage_of_zero hv⟩
  · have hv := GetVoltage_of_cali_failed m h hc
    exact ⟨hv, GetBatteryPercentage_of_zero hv⟩

/-- Witness of C7: the channel configuration is rejected during `Init`; a later read
on a driver that answers every call returns the sentinel. -/
theorem GetVoltage_sentinel_witness :
    (Init { AdcDriver.steady 3700 with adc_oneshot_config_channel := false }
        (new 3 (F32.lit 2))).1 = false ∧
      GetVoltage (AdcDriver.steady 3700)
        (Init { AdcDriver.steady 3700 with adc_oneshot_config_channel := false }
          (new 3 (F32.lit 2))).2 = F32.fin 0 ∧
      GetBatteryPercentage (AdcDriver.steady 3700)
        (Init { AdcDriver.steady 3700 with adc_oneshot_config_channel := false }
          (new 3 (F32.lit 2))).2 = some 0 :=
  ⟨rfl, (GetVoltage_sentinel 3 (F32.lit 2)
    { AdcDriver.steady 3700 with adc_oneshot_config_channel := false }).2.2.1 rfl
    (AdcDriver.steady 3700)⟩

end BatteryMonitor

/-! ## Chat message: auxiliary facts -/

theorem cstr_no_nul (bytes : List Char) : ∀ c ∈ cstr bytes, c ≠ '\x00' := by
  intro c hc
  have := List.mem_takeWhile_imp hc
  simpa using this

theorem cstr_of_no_nul {bytes : List Char} (h : ∀ c ∈ bytes, c ≠ '\x00') :
    cstr bytes = bytes := by
  unfold cstr
  rw [List.takeWhile_eq_self_iff]
  intro c hc
  simpa using h c hc

theorem cstr_append_nul {t : List Char} (h : ∀ c ∈ t, c ≠ '\x00') (rest : List Char) :
    cstr (t ++ '\x00' :: rest) = t := by
  unfold cstr
  rw [List.takeWhile_append_of_pos (by intro c hc; simpa using h c hc)]
  simp

/-- Reading a byte of the C string: inside the string it is the byte of `cstr`, which
is not the terminator; at its end the terminator is read. -/
theorem charAt_cstr (bytes : List Char) :
    ∀ i, i ≤ (cstr bytes).length →
      (i < (cstr bytes).length → (cstr bytes).drop i =
          charAt bytes i :: (cstr bytes).drop (i + 1) ∧ charAt bytes i ≠ '\x00') ∧
      (i = (cstr bytes).length → charAt bytes i = '\x00') := by
  induction bytes with
  | nil =>
    intro i hi
    simp [cstr, charAt] at hi ⊢
  | cons b bs ih =>
    intro i hi
    by_cases hb : b = '\x00'
    · subst hb
      have hl : cstr ('\x00' :: bs) = [] := by simp [cstr]
      rw [hl] at hi ⊢
      simp at hi
      subst hi
      simp [charAt]
    · have hl : cstr (b :: bs) = b :: cstr bs := by
        unfold cstr
        rw [List.takeWhile_cons_of_pos (by simpa using hb)]
      rw [hl] at hi ⊢
      cases i with
      | zero => simp [charAt, hb]
      | succ j =>
        have hj : j ≤ (cstr bs).length := by simpa using hi
        obtain ⟨h1, h2⟩ := ih j hj
        have hc : charAt (b :: bs) (j + 1) = charAt bs j := by simp [charAt]
        rw [hc]
        constructor
        · intro hlt
          have hlt' : j < (cstr bs).length := by simpa using hlt
          simpa using h1 hlt'
        · intro heq
          have heq' : j = (cstr bs).length := by simpa using heq
          exact h2 heq'

theorem writeAt_append (t : List Char) (r : Char) (rest : List Char) (x : Char) :
    writeAt (t ++ r :: rest) t.length x = some (t ++ x :: rest) := by
  unfold writeAt
  rw [if_pos (by simp)]
  congr 1
  rw [List.set_append_right _ _ (le_refl _)]
  simp

theorem writeAt_length {buffer buffer1 : List Char} {i : ℕ} {x : Char}
    (h : writeAt buffer i x = some buffer1) : buffer1.length = buffer.length := by
  unfold writeAt at h
  split_ifs at h
  simp only [Option.some.injEq] at h
  rw [← h, List.length_set]

theorem replaceNewline_ne_nul {c : Char} (h : c ≠ '\x00') : replaceNewline c ≠ '\x00' := by
  unfold replaceNewline
  split_ifs
  · decide
  · exact h

theorem replaceNewline_ne_newline (c : Char) : replaceNewline c ≠ '\n' := by
  unfold replaceNewline
  split_ifs with h
  · decide
  · exact h

/-- The copy loop, entered at `i = t.length` with `k = max_chars - i` rounds to go and a
buffer `t ++ rest` with room for them: it copies `min k (strlen - i)` further bytes. -/
theorem copyChars_spec (content : List Char) (max_chars : ℕ) :
    ∀ (k : ℕ) (t rest : List Char), t.length + k = max_chars →
      t.length ≤ (cstr content).length → k ≤ rest.length →
      copyChars content max_chars t.length (t ++ rest) =
        some (t.length + min k ((cstr content).length - t.length),
          t ++ (((cstr content).drop t.length).take k).map replaceNewline ++
            rest.drop (min k ((cstr content).length - t.length))) := by
  intro k
  induction k with
  | zero =>
    intro t rest hk _ _
    rw [copyChars, if_neg (by omega)]
    simp
  | succ k ih =>
    intro t rest hk hlen hroom
    obtain ⟨hin, hend⟩ := charAt_cstr content t.length hlen
    rw [copyChars, if_pos (by omega)]
    rcases Nat.lt_or_eq_of_le hlen with hlt | heq
    · obtain ⟨hdrop, hne⟩ := hin hlt
      rw [if_pos hne]
      cases rest with
      | nil => simp at hroom
      | cons r rest1 =>
        rw [writeAt_append]
        dsimp only
        have hl : (t ++ [replaceNewline (charAt content t.length)]).length = t.length + 1 := by
          simp
        have happ : t ++ replaceNewline (charAt content t.length) :: rest1 =
            (t ++ [replaceNewline (charAt content t.length)]) ++ rest1 := by simp
        rw [happ, ← hl, ih _ rest1 (by rw [hl]; omega) (by rw [hl]; omega)
          (by simpa using hroom)]
        rw [hl, hdrop]
        have hmin : min (k + 1) ((cstr content).length - t.length) =
            min k ((cstr content).length - (t.length + 1)) + 1 := by omega
        rw [hmin]
        simp [Nat.add_assoc, Nat.add_comm 1]
    · rw [if_neg (by rw [hend heq]; simp)]
      simp [← heq]

theorem writeAt_append_at (t : List Char) (r : Char) (rest : List Char) (x : Char) (n : ℕ)
    (hn : n = t.length) : writeAt (t ++ r :: rest) n x = some (t ++ x :: rest) := by
  subst hn
  exact writeAt_append t r rest x

theorem exists_cons_of_length_pos {l : List Char} (h : 0 < l.length) :
    ∃ a l1, l = a :: l1 := by
  cases l with
  | nil => simp at h
  | cons a l1 => exact ⟨a, l1, rfl⟩

/-- The text that the bounded branches stage for a content and a copy limit. -/
theorem stagedText_no_nul (content : List Char) (limit : ℕ) :
    ∀ c ∈ ((cstr content).take limit).map replaceNewline ++
        (if limit < (cstr content).length then ['.', '.', '.'] else []), c ≠ '\x00' := by
  intro c hc
  rw [List.mem_append] at hc
  rcases hc with hc | hc
  · obtain ⟨x, hx, rfl⟩ := List.mem_map.mp hc
    exact replaceNewline_ne_nul (cstr_no_nul content x (List.mem_of_mem_take hx))
  · split_ifs at hc
    · simp at hc
      subst hc
      decide
    · simp at hc

/-- The bounded branches on a buffer of `size` bytes: no write leaves the buffer, and
afterwards the buffer holds the copied bytes, the ellipsis when the content is longer
than `size - 4`, and the terminator. -/
theorem stageBounded_spec (size : ℕ) (content buffer : List Char) (hsize : 4 ≤ size)
    (hbuf : buffer.length = size) :
    ∃ buffer1, stageBounded size content buffer = some buffer1 ∧ buffer1.length = size ∧
      cstr buffer1 = ((cstr content).take (size - 4)).map replaceNewline ++
        (if size - 4 < (cstr content).length then ['.', '.', '.'] else []) := by
  have hloop := copyChars_spec content (size - 4) (size - 4) [] buffer (by simp) (by simp)
    (by omega)
  simp only [List.length_nil, Nat.zero_add, List.nil_append, List.drop_zero, Nat.sub_zero]
    at hloop
  have hnn := stagedText_no_nul content (size - 4)
  unfold stageBounded
  rw [hloop]
  dsimp only
  obtain ⟨hin, hend⟩ := charAt_cstr content (min (size - 4) (cstr content).length)
    (Nat.min_le_right _ _)
  have htl : (((cstr content).take (size - 4)).map replaceNewline).length =
      min (size - 4) (cstr content).length := by simp
  by_cases hlong : size - 4 < (cstr content).length
  · have hmin : min (size - 4) (cstr content).length = size - 4 := by omega
    rw [if_pos hlong] at hnn ⊢
    rw [hmin] at hin htl ⊢
    rw [if_pos (hin hlong).2]
    have hrest : 4 ≤ (buffer.drop (size - 4)).length := by
      rw [List.length_drop]; omega
    obtain ⟨r0, l0, e0⟩ := exists_cons_of_length_pos (l := buffer.drop (size - 4)) (by omega)
    rw [e0] at hrest ⊢
    obtain ⟨r1, l1, e1⟩ := exists_cons_of_length_pos (l := l0) (by simp at hrest; omega)
    subst e1
    obtain ⟨r2, l2, e2⟩ := exists_cons_of_length_pos (l := l1) (by simp at hrest; omega)
    subst e2
    obtain ⟨r3, l3, e3⟩ := exists_cons_of_length_pos (l := l2) (by simp at hrest; omega)
    subst e3
    rw [writeAt_append_at _ r0 _ '.' _ htl.symm]
    dsimp only
    have a1 : ((cstr content).take (size - 4)).map replaceNewline ++ '.' :: r1 :: r2 :: r3 :: l3 =
        (((cstr content).take (size - 4)).map replaceNewline ++ ['.']) ++ r1 :: r2 :: r3 :: l3 := by
      simp
    rw [a1, writeAt_append_at _ r1 _ '.' _ (by rw [List.length_append, htl]; rfl)]
    dsimp only
    have a2 : (((cstr content).take (size - 4)).map replaceNewline ++ ['.']) ++ '.' :: r2 :: r3 :: l3 =
        (((cstr content).take (size - 4)).map replaceNewline ++ ['.', '.']) ++ r2 :: r3 :: l3 := by
      simp
    rw [a2, writeAt_append_at _ r2 _ '.' _ (by rw [List.length_append, htl]; rfl)]
    dsimp only
    have a3 : (((cstr content).take (size - 4)).map replaceNewline ++ ['.', '.']) ++ '.' :: r3 :: l3 =
        (((cstr content).take (size - 4)).map replaceNewline ++ ['.', '.', '.']) ++ r3 :: l3 := by
      simp
    rw [a3, writeAt_append_at _ r3 _ '\x00' _ (by rw [List.length_append, htl]; rfl)]
    refine ⟨_, rfl, ?_, cstr_append_nul hnn l3⟩
    have hl := congrArg List.length e0
    simp only [List.length_drop, List.length_cons, hbuf] at hl
    simp only [List.length_append, List.length_cons, htl, List.length_nil]
    omega
  · have hmin : min (size - 4) (cstr content).length = (cstr content).length := by omega
    rw [if_neg hlong] at hnn ⊢
    rw [hmin] at hend htl ⊢
    rw [if_neg (by rw [hend rfl]; simp)]
    obtain ⟨r0, l0, e0⟩ := exists_cons_of_length_pos (l := buffer.drop (cstr content).length)
      (by rw [List.length_drop]; omega)
    rw [e0, writeAt_append_at _ r0 _ '\x00' _ htl.symm]
    rw [List.append_nil] at hnn ⊢
    refine ⟨_, rfl, ?_, cstr_append_nul hnn l0⟩
    have hl := congrArg List.length e0
    simp only [List.length_drop, List.length_cons, hbuf] at hl
    simp only [List.length_append, List.length_cons, htl]
    omega

/-! ## Chat message: properties -/

namespace OledDisplay

theorem nullOrEmpty_some_false {content : Option (List Char)}
    (h : nullOrEmpty content = false) : ∃ c, content = some c ∧ cstr c ≠ [] := by
  cases content with
  | none => simp [nullOrEmpty] at h
  | some c =>
    refine ⟨c, rfl, ?_⟩
    intro hc
    have := (charAt_cstr c 0 (Nat.zero_le _)).2 (by rw [hc]; rfl)
    simp [nullOrEmpty, this] at h

/-- The HIGH branch on a non-empty content. -/
theorem SetChatMessage_high (s : OledDisplay) (role : Option (List Char)) (c : List Char)
    (label : LvObj) (hlabel : s.chat_message_label_ = some label) (hbuf : s.BuffersSized)
    (hne : nullOrEmpty (some c) = false)
    (hlevel : s.memory_optimization_level_ = MemoryOptimizationLevel.HIGH) :
    ∃ s1, SetChatMessage s role (some c) = some s1 ∧ s1.BuffersSized ∧
      s1.chatText = cstr s1.static_buffer ∧
      s1.chatText = ((cstr c).take 36).map replaceNewline ++
        (if 36 < (cstr c).length then ['.', '.', '.'] else []) := by
  obtain ⟨b, hb, hlen, htext⟩ :=
    stageBounded_spec STATIC_BUFFER_SIZE c s.static_buffer (by decide) hbuf.1
  unfold SetChatMessage
  rw [hlabel]
  dsimp only
  rw [if_pos hlevel, hne]
  simp only [Bool.false_eq_true, if_false, Option.getD_some]
  rw [hb]
  exact ⟨_, rfl, ⟨hlen, hbuf.2⟩, rfl, htext⟩

/-- The MEDIUM branch on a non-empty content. -/
theorem SetChatMessage_medium (s : OledDisplay) (role : Option (List Char)) (c : List Char)
    (label : LvObj) (hlabel : s.chat_message_label_ = some label) (hbuf : s.BuffersSized)
    (hne : nullOrEmpty (some c) = false)
    (hlevel : s.memory_optimization_level_ = MemoryOptimizationLevel.MEDIUM) :
    ∃ s1, SetChatMessage s role (some c) = some s1 ∧ s1.BuffersSized ∧
      s1.chatText = cstr s1.medium_buffer ∧
      s1.chatText = ((cstr c).take 76).map replaceNewline ++
        (if 76 < (cstr c).length then ['.', '.', '.'] else []) := by
  obtain ⟨b, hb, hlen, htext⟩ :=
    stageBounded_spec MEDIUM_BUFFER_SIZE c s.medium_buffer (by decide) hbuf.2
  unfold SetChatMessage
  rw [hlabel]
  dsimp only
  rw [if_neg (by rw [hlevel]; decide), if_pos hlevel, hne]
  simp only [Bool.false_eq_true, if_false, Option.getD_some]
  rw [hb]
  exact ⟨_, rfl, ⟨hbuf.1, hlen⟩, rfl, htext⟩

theorem staged_length_le (c : List Char) (limit : ℕ) :
    (((cstr c).take limit).map replaceNewline ++
      (if limit < (cstr c).length then ['.', '.', '.'] else [])).length ≤ limit + 3 := by
  split_ifs <;> simp

theorem SetChatMessage_of_nullOrEmpty (s : OledDisplay) (role content : Option (List Char))
    (label : LvObj) (hlabel : s.chat_message_label_ = some label)
    (hlevel : s.memory_optimization_level_ = MemoryOptimizationLevel.HIGH ∨
      s.memory_optimization_level_ = MemoryOptimizationLevel.MEDIUM)
    (he : nullOrEmpty content = true) :
    SetChatMessage s role content =
      some { s with content_right_ := s.content_right_.map LvObj.add_flag_hidden } := by
  unfold SetChatMessage
  rw [hlabel]
  rcases hlevel with h | h <;> simp [h, he]

/-- C8: at HIGH and MEDIUM, for every content of any length, no write of
`SetChatMessage` leaves its buffer (the call is defined and the buffers keep their 40
and 80 bytes), and the text staged for a non-empty content, the C string then in the
buffer, has at most 39 characters at HIGH and at most 79 at MEDIUM. -/
theorem SetChatMessage_within_capacity (s : OledDisplay) (role : Option (List Char))
    (content : Option (List Char)) (label : LvObj)
    (hlabel : s.chat_message_label_ = some label) (hbuf : s.BuffersSized) :
    (s.memory_optimization_level_ = MemoryOptimizationLevel.HIGH →
      ∃ s1, SetChatMessage s role content = some s1 ∧
        s1.static_buffer.length = 40 ∧ s1.medium_buffer.length = 80 ∧
        (nullOrEmpty content = false →
          s1.chatText = cstr s1.static_buffer ∧ s1.chatText.length ≤ 39)) ∧
    (s.memory_optimization_level_ = MemoryOptimizationLevel.MEDIUM →
      ∃ s1, SetChatMessage s role content = some s1 ∧
        s1.static_buffer.length = 40 ∧ s1.medium_buffer.length = 80 ∧
        (nullOrEmpty content = false →
          s1.chatText = cstr s1.medium_buffer ∧ s1.chatText.length ≤ 79)) := by
  cases hne : nullOrEmpty content with
  | true =>
    constructor
    · intro hlevel
      exact ⟨_, SetChatMessage_of_nullOrEmpty s role content label hlabel (Or.inl hlevel) hne,
        hbuf.1, hbuf.2, fun h => by simp at h⟩
    · intro hlevel
      exact ⟨_, SetChatMessage_of_nullOrEmpty s role content label hlabel (Or.inr hlevel) hne,
        hbuf.1, hbuf.2, fun h => by simp at h⟩
  | false =>
    obtain ⟨c, rfl, _⟩ := nullOrEmpty_some_false hne
    constructor
    · intro hlevel
      obtain ⟨s1, h1, h2, h3, h4⟩ :=
        SetChatMessage_high s role c label hlabel hbuf hne hlevel
      refine ⟨s1, h1, h2.1, h2.2, fun _ => ⟨h3, ?_⟩⟩
      rw [h4]
      exact staged_length_le c 36
    · intro hlevel
      obtain ⟨s1, h1, h2, h3, h4⟩ :=
        SetChatMessage_medium s role c label hlabel hbuf hne hlevel
      refine ⟨s1, h1, h2.1, h2.2, fun _ => ⟨h3, ?_⟩⟩
      rw [h4]
      exact staged_length_le c 76

/-- Witness of C8: a content of 50 characters at HIGH. -/
theorem SetChatMessage_within_capacity_witness :
    ∃ s1, SetChatMessage (sample MemoryOptimizationLevel.HIGH) none (some fiftyChars) =
        some s1 ∧
      s1.static_buffer.length = 40 ∧ s1.medium_buffer.length = 80 ∧
      (nullOrEmpty (some fiftyChars) = false →
        s1.chatText = cstr s1.static_buffer ∧ s1.chatText.length ≤ 39) :=
  (SetChatMessage_within_capacity (sample MemoryOptimizationLevel.HIGH) none
    (some fiftyChars) _ rfl ⟨rfl, rfl⟩).1 rfl

/-- C9: for every non-empty content at HIGH (copy limit 36) and MEDIUM (copy limit 76):
a content of more than the limit is staged as its first limit-many characters, line
breaks replaced, followed by exactly `...`; a content of at most the limit is staged
whole, line breaks replaced, with nothing appended. -/
theorem SetChatMessage_truncation (s : OledDisplay) (role : Option (List Char))
    (content : List Char) (label : LvObj)
    (hlabel : s.chat_message_label_ = some label) (hbuf : s.BuffersSized)
    (hne : nullOrEmpty (some content) = false) :
    (s.memory_optimization_level_ = MemoryOptimizationLevel.HIGH →
      ∃ s1, SetChatMessage s role (some content) = some s1 ∧
        (36 < (cstr content).length →
          s1.chatText = ((cstr content).take 36).map replaceNewline ++ ['.', '.', '.']) ∧
        ((cstr content).length ≤ 36 → s1.chatText = (cstr content).map replaceNewline)) ∧
    (s.memory_optimization_level_ = MemoryOptimizationLevel.MEDIUM →
      ∃ s1, SetChatMessage s role (some content) = some s1 ∧
        (76 < (cstr content).length →
          s1.chatText = ((cstr content).take 76).map replaceNewline ++ ['.', '.', '.']) ∧
        ((cstr content).length ≤ 76 → s1.chatText = (cstr content).map replaceNewline)) := by
  constructor
  · intro hlevel
    obtain ⟨s1, h1, _, _, h4⟩ :=
      SetChatMessage_high s role content label hlabel hbuf hne hlevel
    refine ⟨s1, h1, fun hl => ?_, fun hl => ?_⟩
    · rw [h4, if_pos hl]
    · rw [h4, if_neg (by omega), List.take_of_length_le hl, List.append_nil]
  · intro hlevel
    obtain ⟨s1, h1, _, _, h4⟩ :=
      SetChatMessage_medium s role content label hlabel hbuf hne hlevel
    refine ⟨s1, h1, fun hl => ?_, fun hl => ?_⟩
    · rw [h4, if_pos hl]
    · rw [h4, if_neg (by omega), List.take_of_length_le hl, List.append_nil]

/-- Witness of C9: a content of exactly 36 characters at HIGH is staged whole. -/
theorem SetChatMessage_truncation_witness :
    ∃ s1, SetChatMessage (sample MemoryOptimizationLevel.HIGH) none
        (some (fiftyChars.take 36)) = some s1 ∧
      (36 < (cstr (fiftyChars.take 36)).length →
        s1.chatText =
          ((cstr (fiftyChars.take 36)).take 36).map replaceNewline ++ ['.', '.', '.']) ∧
      ((cstr (fiftyChars.take 36)).length ≤ 36 →
        s1.chatText = (cstr (fiftyChars.take 36)).map replaceNewline) :=
  (SetChatMessage_truncation (sample MemoryOptimizationLevel.HIGH) none
    (fiftyChars.take 36) _ rfl ⟨rfl, rfl⟩ (by decide)).1 rfl

theorem cstr_fiftyChars : cstr fiftyChars = fiftyChars := by decide

/-- Counterexample to C10: a content of 50 characters at HIGH is stored as its first 36
characters followed by the ellipsis, 39 characters in all, and not as the first 35
characters followed by the ellipsis. -/
theorem SetChatMessage_fifty_chars_at_high :
    fiftyChars.length = 50 ∧
      ∃ s1, SetChatMessage (sample MemoryOptimizationLevel.HIGH) none (some fiftyChars) =
          some s1 ∧
        s1.chatText = "012345678901234567890123456789012345...".toList ∧
        s1.chatText.length = 39 ∧
        s1.chatText ≠ (fiftyChars.take 35).map replaceNewline ++ ['.', '.', '.'] := by
  refine ⟨by decide, ?_⟩
  obtain ⟨s1, h1, _, _, h4⟩ := SetChatMessage_high (sample MemoryOptimizationLevel.HIGH) none
    fiftyChars _ rfl ⟨rfl, rfl⟩ (by decide) rfl
  rw [cstr_fiftyChars] at h4
  have h5 : s1.chatText = "012345678901234567890123456789012345...".toList := by
    rw [h4]
    decide
  refine ⟨s1, h1, h5, ?_, ?_⟩
  · rw [h5]
    decide
  · rw [h5]
    decide

/-- C10, amended: at HIGH the copy limit is `sizeof(static_buffer) - 4 = 36`: every
content longer than 36 characters is stored as its first 36 characters, line breaks
replaced, followed by the 3-character ellipsis, 39 characters in all. -/
theorem SetChatMessage_high_copy_limit (s : OledDisplay) (role : Option (List Char))
    (content : List Char) (label : LvObj)
    (hlabel : s.chat_message_label_ = some label) (hbuf : s.BuffersSized)
    (hlevel : s.memory_optimization_level_ = MemoryOptimizationLevel.HIGH)
    (hlong : 36 < (cstr content).length) :
    STATIC_BUFFER_SIZE - 4 = 36 ∧
      ∃ s1, SetChatMessage s role (some content) = some s1 ∧
        s1.chatText = ((cstr content).take 36).map replaceNewline ++ ['.', '.', '.'] ∧
        s1.chatText.length = 39 := by
  have hne : nullOrEmpty (some content) = false := by
    have h0 := ((charAt_cstr content 0 (Nat.zero_le _)).1 (by omega)).2
    simp [nullOrEmpty, h0]
  obtain ⟨s1, h1, _, _, h4⟩ := SetChatMessage_high s role content label hlabel hbuf hne hlevel
  rw [if_pos hlong] at h4
  refine ⟨rfl, s1, h1, h4, ?_⟩
  rw [h4]
  simp
  omega

/-- Witness of C10 as amended: the content of 50 characters. -/
theorem SetChatMessage_high_copy_limit_witness :
    ∃ s1, SetChatMessage (sample MemoryOptimizationLevel.HIGH) none (some fiftyChars) =
        some s1 ∧
      s1.chatText = ((cstr fiftyChars).take 36).map replaceNewline ++ ['.', '.', '.'] ∧
      s1.chatText.length = 39 :=
  (SetChatMessage_high_copy_limit (sample MemoryOptimizationLevel.HIGH) none fiftyChars _ rfl
    ⟨rfl, rfl⟩ rfl (by decide)).2

end OledDisplay

/-! ## Optimisation policy and refresh scheduling: properties -/

namespace OledDisplay

/-- C13: for every prior display state and every level `L`, after
`SetMemoryOptimizationLevel(L)` the triple (refresh divisor, animations enabled,
simplified icon mode) is the row of `L` in the table: NONE (1, on, off), LOW
(2, on, off), MEDIUM (3, off, off), HIGH (5, off, on); HIGH followed by NONE gives
animations on and divisor 1. -/
theorem SetMemoryOptimizationLevel_profile (s : OledDisplay) (level : MemoryOptimizationLevel) :
    ((s.SetMemoryOptimizationLevel level).refresh_rate_,
        (s.SetMemoryOptimizationLevel level).animations_enabled_,
        (s.SetMemoryOptimizationLevel level).simplified_emotion_mode_) = profileRow level ∧
      (s.SetMemoryOptimizationLevel level).memory_optimization_level_ = level ∧
      ((s.SetMemoryOptimizationLevel MemoryOptimizationLevel.HIGH).SetMemoryOptimizationLevel
          MemoryOptimizationLevel.NONE).animations_enabled_ = true ∧
      ((s.SetMemoryOptimizationLevel MemoryOptimizationLevel.HIGH).SetMemoryOptimizationLevel
          MemoryOptimizationLevel.NONE).refresh_rate_ = 1 ∧
      ((s.SetMemoryOptimizationLevel MemoryOptimizationLevel.HIGH).SetMemoryOptimizationLevel
          MemoryOptimizationLevel.NONE).simplified_emotion_mode_ = false := by
  cases level <;> simp [SetMemoryOptimizationLevel, profileRow]

theorem Refresh_of_unlocked (fa : FontAwesomeSymbols) (s : OledDisplay)
    (h : s.locked_ = false) : Refresh fa s = s := by
  unfold Refresh
  rw [if_pos h]

theorem Refresh_skip (fa : FontAwesomeSymbols) (s : OledDisplay) (h : s.locked_ = true)
    (hc : (s.refresh_counter_ + 1) % 256 < s.refresh_rate_) :
    Refresh fa s = { s with refresh_counter_ := (s.refresh_counter_ + 1) % 256 } := by
  unfold Refresh
  rw [if_neg (by simp [h]), if_pos hc]

theorem Refresh_pass (fa : FontAwesomeSymbols) (s : OledDisplay) (h : s.locked_ = true)
    (hc : ¬ (s.refresh_counter_ + 1) % 256 < s.refresh_rate_) :
    (Refresh fa s).refresh_counter_ = 0 ∧ (Refresh fa s).dirty_ = false ∧
      (Refresh fa s).render_passes = s.render_passes + 1 ∧
      (Refresh fa s).locked_ = true ∧ (Refresh fa s).refresh_rate_ = s.refresh_rate_ ∧
      (Refresh fa s).battery_label_ = s.battery_label_ ∧
      (Refresh fa s).battery_percentage_label_ = s.battery_percentage_label_ ∧
      (Refresh fa s).network_icon_ = s.network_icon_ ∧
      (Refresh fa s).network_label_ =
        s.network_label_.map (fun label =>
          if nullOrEmpty s.network_icon_ then
            label.clear_flag_hidden.set_text fa.FONT_AWESOME_SIGNAL_1
          else label.clear_flag_hidden.set_text (s.network_icon_.getD [])) := by
  unfold Refresh
  rw [if_neg (by simp [h]), if_neg hc]
  simp [h]

/-- The first calls of `Refresh` under the lock, from a counter of 0: they only count. -/
theorem Refresh_iterate_skip (fa : FontAwesomeSymbols) (s : OledDisplay)
    (hl : s.locked_ = true) (h0 : s.refresh_counter_ = 0) (hd : s.refresh_rate_ < 256) :
    ∀ k, k < s.refresh_rate_ →
      (Refresh fa)^[k] s = { s with refresh_counter_ := k } := by
  intro k
  induction k with
  | zero =>
    intro _
    rw [Function.iterate_zero_apply]
    cases s
    simp only at h0
    subst h0
    rfl
  | succ k ih =>
    intro hk
    rw [Function.iterate_succ_apply', ih (by omega)]
    have hmod : (k + 1) % 256 = k + 1 := Nat.mod_eq_of_lt (by omega)
    have hstep := Refresh_skip fa { s with refresh_counter_ := k } hl
      (by simp only [hmod]; exact hk)
    rw [hstep]
    simp only [hmod]

/-- C15: for every refresh divisor `d` with `1 ≤ d` (a `uint8_t`, so `d < 256`),
starting from `refresh_counter_ = 0` with `locked_` set: each of the first `d - 1` calls
of `Refresh` performs no render pass, and the `d`-th call performs exactly one, clears
`dirty_` and leaves `refresh_counter_ = 0`. -/
theorem Refresh_every_dth_call (fa : FontAwesomeSymbols) (s : OledDisplay) (d : ℕ)
    (hl : s.locked_ = true) (h0 : s.refresh_counter_ = 0) (hrate : s.refresh_rate_ = d)
    (h1 : 1 ≤ d) (hd : d < 256) :
    (∀ k, k < d → ((Refresh fa)^[k] s).render_passes = s.render_passes ∧
      ((Refresh fa)^[k] s).refresh_counter_ = k) ∧
    ((Refresh fa)^[d] s).render_passes = s.render_passes + 1 ∧
    ((Refresh fa)^[d] s).dirty_ = false ∧
    ((Refresh fa)^[d] s).refresh_counter_ = 0 := by
  subst hrate
  have hskip := Refresh_iterate_skip fa s hl h0 hd
  constructor
  · intro k hk
    rw [hskip k hk]
    exact ⟨rfl, rfl⟩
  · obtain ⟨e, he⟩ : ∃ e, s.refresh_rate_ = e + 1 := ⟨s.refresh_rate_ - 1, by omega⟩
    rw [he, Function.iterate_succ_apply', hskip e (by omega)]
    have hmod : (e + 1) % 256 = e + 1 := Nat.mod_eq_of_lt (by omega)
    obtain ⟨p1, p2, p3, _⟩ := Refresh_pass fa { s with refresh_counter_ := e } hl
      (by simp only [hmod]; omega)
    exact ⟨p3, p2, p1⟩

/-- Witness of C15: the divisor 5 of HIGH. -/
theorem Refresh_every_dth_call_witness :
    (∀ k, k < 5 →
      ((Refresh FontAwesomeSymbols.sample)^[k]
        heldSample).render_passes = 0 ∧
      ((Refresh FontAwesomeSymbols.sample)^[k]
        heldSample).refresh_counter_ = k) ∧
    ((Refresh FontAwesomeSymbols.sample)^[5]
      heldSample).render_passes = 0 + 1 ∧
    ((Refresh FontAwesomeSymbols.sample)^[5]
      heldSample).dirty_ = false ∧
    ((Refresh FontAwesomeSymbols.sample)^[5]
      heldSample).refresh_counter_ = 0 :=
  Refresh_every_dth_call FontAwesomeSymbols.sample
    heldSample 5 rfl rfl rfl (by decide) (by decide)

/-- C16: when `locked_` is false, `Refresh` is a no-op: it returns the state it was
given, so the counter, the dirty flag, the profile and every display element are
unchanged, and it performs no render pass. -/
theorem Refresh_without_lock (fa : FontAwesomeSymbols) (s : OledDisplay)
    (h : s.locked_ = false) :
    Refresh fa s = s ∧ (Refresh fa s).render_passes = s.render_passes ∧
      (Refresh fa s).refresh_counter_ = s.refresh_counter_ ∧
      (Refresh fa s).dirty_ = s.dirty_ := by
  rw [Refresh_of_unlocked fa s h]
  exact ⟨rfl, rfl, rfl, rfl⟩

/-- Witness of C16: a display that is dirty, with a counter of 4 under a divisor of 5. -/
theorem Refresh_without_lock_witness :
    Refresh FontAwesomeSymbols.sample
        idleSample =
      idleSample :=
  (Refresh_without_lock FontAwesomeSymbols.sample
    idleSample rfl).1

end OledDisplay

namespace OledDisplay

theorem SetChatMessage_frame {s s1 : OledDisplay} {role content : Option (List Char)}
    (h : SetChatMessage s role content = some s1) :
    s1.locked_ = s.locked_ ∧ s1.refresh_counter_ = s.refresh_counter_ ∧
      s1.render_passes = s.render_passes ∧ s1.refresh_rate_ = s.refresh_rate_ := by
  unfold SetChatMessage at h
  repeat' split at h
  all_goals first
    | (simp only [Option.some.injEq] at h; subst h; exact ⟨rfl, rfl, rfl, rfl⟩)
    | simp at h

theorem SetEmotion_frame {fa : FontAwesomeSymbols} {s s1 : OledDisplay}
    {emotion : Option (List Char)} (h : SetEmotion fa s emotion = some s1) :
    s1.locked_ = s.locked_ ∧ s1.refresh_counter_ = s.refresh_counter_ ∧
      s1.render_passes = s.render_passes ∧ s1.refresh_rate_ = s.refresh_rate_ := by
  unfold SetEmotion at h
  repeat' split at h
  all_goals first
    | (simp only [Option.some.injEq] at h; subst h; exact ⟨rfl, rfl, rfl, rfl⟩)
    | simp at h

theorem UpdateBatteryDisplay_frame {fa : FontAwesomeSymbols} {d : AdcDriver}
    {s s1 : OledDisplay} (h : UpdateBatteryDisplay fa d s = some s1) :
    s1.locked_ = s.locked_ ∧ s1.refresh_counter_ = s.refresh_counter_ ∧
      s1.render_passes = s.render_passes ∧ s1.refresh_rate_ = s.refresh_rate_ := by
  unfold UpdateBatteryDisplay at h
  repeat' split at h
  all_goals first
    | (simp only [Option.some.injEq] at h; subst h; exact ⟨rfl, rfl, rfl, rfl⟩)
    | simp at h

theorem SetBatteryMonitor_frame {fa : FontAwesomeSymbols} {d : AdcDriver}
    {s s1 : OledDisplay} {monitor : Option BatteryMonitor}
    (h : SetBatteryMonitor fa d s monitor = some s1) :
    s1.locked_ = s.locked_ ∧ s1.refresh_counter_ = s.refresh_counter_ ∧
      s1.render_passes = s.render_passes ∧ s1.refresh_rate_ = s.refresh_rate_ := by
  unfold SetBatteryMonitor at h
  split at h
  · have hf := UpdateBatteryDisplay_frame h
    exact hf
  · simp only [Option.some.injEq] at h
    subst h
    exact ⟨rfl, rfl, rfl, rfl⟩

theorem SetNetworkIcon_frame (fa : FontAwesomeSymbols) (s : OledDisplay)
    (icon : Option (List Char)) :
    (SetNetworkIcon fa s icon).locked_ = s.locked_ ∧
      (SetNetworkIcon fa s icon).refresh_counter_ = s.refresh_counter_ ∧
      (SetNetworkIcon fa s icon).render_passes = s.render_passes ∧
      (SetNetworkIcon fa s icon).refresh_rate_ = s.refresh_rate_ := by
  unfold SetNetworkIcon
  split <;> exact ⟨rfl, rfl, rfl, rfl⟩

theorem SetMemoryOptimizationLevel_frame (s : OledDisplay) (level : MemoryOptimizationLevel) :
    (s.SetMemoryOptimizationLevel level).locked_ = s.locked_ ∧
      (s.SetMemoryOptimizationLevel level).refresh_counter_ = s.refresh_counter_ ∧
      (s.SetMemoryOptimizationLevel level).render_passes = s.render_passes ∧
      1 ≤ (s.SetMemoryOptimizationLevel level).refresh_rate_ := by
  cases level <;> simp [SetMemoryOptimizationLevel]

theorem SetRefreshRate_frame (s : OledDisplay) (rate : ℕ) :
    (s.SetRefreshRate rate).locked_ = s.locked_ ∧
      (s.SetRefreshRate rate).refresh_counter_ = s.refresh_counter_ ∧
      (s.SetRefreshRate rate).render_passes = s.render_passes ∧
      1 ≤ (s.SetRefreshRate rate).refresh_rate_ ∧ (s.SetRefreshRate rate).refresh_rate_ < 256 := by
  unfold SetRefreshRate
  refine ⟨rfl, rfl, rfl, ?_, ?_⟩
  · show 1 ≤ (if rate % 256 = 0 then 1 else rate % 256)
    split_ifs <;> omega
  · show (if rate % 256 = 0 then 1 else rate % 256) < 256
    split_ifs <;> omega

theorem new_idle (fa : FontAwesomeSymbols) (display_added : Bool) (height : ℤ)
    (scroll_anim : ℕ) : (new fa display_added height scroll_anim).Idle := by
  unfold new
  cases display_added
  · exact ⟨rfl, rfl, rfl, le_refl _⟩
  · by_cases h : height = 64
    · simp only [h, if_true]
      exact ⟨rfl, rfl, rfl, le_refl _⟩
    · simp only [h, if_false]
      exact ⟨rfl, rfl, rfl, le_refl _⟩

theorem call_idle {fa : FontAwesomeSymbols} {s s1 : OledDisplay} {c : DisplayCall}
    (hs : s.Idle) (h : call fa s c = some s1) : s1.Idle := by
  obtain ⟨hl, hc, hp, hr⟩ := hs
  cases c with
  | Lock t g =>
    simp only [call, Lock, Option.some.injEq] at h
    subst h
    exact ⟨hl, hc, hp, hr⟩
  | Unlock =>
    simp only [call, Unlock, Option.some.injEq] at h
    subst h
    exact ⟨hl, hc, hp, hr⟩
  | SetChatMessage role content =>
    obtain ⟨f1, f2, f3, f4⟩ := SetChatMessage_frame (show SetChatMessage s role content = some s1 from h)
    exact ⟨f1.trans hl, f2.trans hc, f3.trans hp, f4 ▸ hr⟩
  | SetEmotion emotion =>
    obtain ⟨f1, f2, f3, f4⟩ := SetEmotion_frame (show SetEmotion fa s emotion = some s1 from h)
    exact ⟨f1.trans hl, f2.trans hc, f3.trans hp, f4 ▸ hr⟩
  | SetNetworkIcon icon =>
    simp only [call, Option.some.injEq] at h
    subst h
    obtain ⟨f1, f2, f3, f4⟩ := SetNetworkIcon_frame fa s icon
    exact ⟨f1.trans hl, f2.trans hc, f3.trans hp, f4 ▸ hr⟩
  | UpdateBatteryDisplay d =>
    obtain ⟨f1, f2, f3, f4⟩ :=
      UpdateBatteryDisplay_frame (show UpdateBatteryDisplay fa d s = some s1 from h)
    exact ⟨f1.trans hl, f2.trans hc, f3.trans hp, f4 ▸ hr⟩
  | SetBatteryMonitor d monitor =>
    obtain ⟨f1, f2, f3, f4⟩ :=
      SetBatteryMonitor_frame (show SetBatteryMonitor fa d s monitor = some s1 from h)
    exact ⟨f1.trans hl, f2.trans hc, f3.trans hp, f4 ▸ hr⟩
  | SetMemoryOptimizationLevel level =>
    simp only [call, Option.some.injEq] at h
    subst h
    obtain ⟨f1, f2, f3, f4⟩ := SetMemoryOptimizationLevel_frame s level
    exact ⟨f1.trans hl, f2.trans hc, f3.trans hp, f4⟩
  | SetRefreshRate rate =>
    simp only [call, Option.some.injEq] at h
    subst h
    obtain ⟨f1, f2, f3, f4, _⟩ := SetRefreshRate_frame s rate
    exact ⟨f1.trans hl, f2.trans hc, f3.trans hp, f4⟩
  | EnableAnimations enable =>
    simp only [call, EnableAnimations, Option.some.injEq] at h
    subst h
    exact ⟨hl, hc, hp, hr⟩
  | SetSimplifiedEmotionMode simplified =>
    simp only [call, SetSimplifiedEmotionMode, Option.some.injEq] at h
    subst h
    exact ⟨hl, hc, hp, hr⟩
  | Refresh =>
    simp only [call, Option.some.injEq] at h
    subst h
    rw [Refresh_of_unlocked fa s hl]
    exact ⟨hl, hc, hp, hr⟩

theorem calls_idle {fa : FontAwesomeSymbols} (cs : List DisplayCall) :
    ∀ {s s1 : OledDisplay}, s.Idle → calls fa s cs = some s1 → s1.Idle := by
  induction cs with
  | nil =>
    intro s s1 hs h
    simp only [calls, Option.some.injEq] at h
    subst h
    exact hs
  | cons c cs ih =>
    intro s s1 hs h
    unfold calls at h
    cases hc : call fa s c with
    | none => simp [hc] at h
    | some s2 =>
      rw [hc] at h
      exact ih (call_idle hs hc) h

end OledDisplay

namespace OledDisplay

theorem Refresh_keeps_locked (fa : FontAwesomeSymbols) (s : OledDisplay) :
    (Refresh fa s).locked_ = s.locked_ := by
  cases hl : s.locked_ with
  | false =>
    rw [Refresh_of_unlocked fa s hl]
    exact hl
  | true =>
    by_cases h2 : (s.refresh_counter_ + 1) % 256 < s.refresh_rate_
    · rw [Refresh_skip fa s hl h2]
      exact hl
    · exact (Refresh_pass fa s hl h2).2.2.2.1

theorem call_keeps_locked {fa : FontAwesomeSymbols} {s s1 : OledDisplay} {c : DisplayCall}
    (h : call fa s c = some s1) : s1.locked_ = s.locked_ := by
  cases c with
  | Lock t g =>
    simp only [call, Lock, Option.some.injEq] at h
    subst h
    rfl
  | Unlock =>
    simp only [call, Unlock, Option.some.injEq] at h
    subst h
    rfl
  | SetChatMessage role content =>
    exact (SetChatMessage_frame (show SetChatMessage s role content = some s1 from h)).1
  | SetEmotion emotion =>
    exact (SetEmotion_frame (show SetEmotion fa s emotion = some s1 from h)).1
  | SetNetworkIcon icon =>
    simp only [call, Option.some.injEq] at h
    subst h
    exact (SetNetworkIcon_frame fa s icon).1
  | UpdateBatteryDisplay d =>
    exact (UpdateBatteryDisplay_frame (show UpdateBatteryDisplay fa d s = some s1 from h)).1
  | SetBatteryMonitor d monitor =>
    exact (SetBatteryMonitor_frame
      (show SetBatteryMonitor fa d s monitor = some s1 from h)).1
  | SetMemoryOptimizationLevel level =>
    simp only [call, Option.some.injEq] at h
    subst h
    exact (SetMemoryOptimizationLevel_frame s level).1
  | SetRefreshRate rate =>
    simp only [call, Option.some.injEq] at h
    subst h
    exact (SetRefreshRate_frame s rate).1
  | EnableAnimations enable =>
    simp only [call, EnableAnimations, Option.some.injEq] at h
    subst h
    rfl
  | SetSimplifiedEmotionMode simplified =>
    simp only [call, SetSimplifiedEmotionMode, Option.some.injEq] at h
    subst h
    rfl
  | Refresh =>
    simp only [call, Option.some.injEq] at h
    subst h
    exact Refresh_keeps_locked fa s

/-- C19: no call of a method assigns `locked_`; it is false after construction and in
every state reached from construction by a sequence of calls, and there `Refresh`
takes the branch "called without lock": it returns the state unchanged, performs no
render pass, `refresh_counter_` is 0 and `IsDisplayLocked` returns false. -/
theorem locked_never_set (fa : FontAwesomeSymbols) :
    (∀ (s s1 : OledDisplay) (c : DisplayCall), call fa s c = some s1 →
      s1.locked_ = s.locked_) ∧
    (∀ display_added height scroll_anim,
      (new fa display_added height scroll_anim).locked_ = false) ∧
    (∀ display_added height scroll_anim (cs : List DisplayCall) (s : OledDisplay),
      calls fa (new fa display_added height scroll_anim) cs = some s →
        s.locked_ = false ∧ s.IsDisplayLocked = false ∧ Refresh fa s = s ∧
          (Refresh fa s).render_passes = 0 ∧ s.render_passes = 0 ∧
          s.refresh_counter_ = 0 ∧ (Refresh fa s).refresh_counter_ = 0) := by
  refine ⟨fun s s1 c h => call_keeps_locked h, fun da h a => (new_idle fa da h a).1,
    fun da h a cs s hs => ?_⟩
  obtain ⟨h1, h2, h3, _⟩ := calls_idle cs (new_idle fa da h a) hs
  have hr := Refresh_of_unlocked fa s h1
  rw [hr]
  exact ⟨h1, h1, rfl, h3, h3, h2, h2⟩

/-- Witness of C19: the board's construction followed by two calls of `Refresh`. -/
theorem locked_never_set_witness :
    (Refresh FontAwesomeSymbols.sample
      (Refresh FontAwesomeSymbols.sample
        (SilicoreC3Oled.new FontAwesomeSymbols.sample true 64 0))).locked_ = false ∧
    (Refresh FontAwesomeSymbols.sample
      (Refresh FontAwesomeSymbols.sample
        (SilicoreC3Oled.new FontAwesomeSymbols.sample true 64 0))).render_passes = 0 :=
  ⟨((locked_never_set FontAwesomeSymbols.sample).2.2 true 64 0
      [DisplayCall.SetMemoryOptimizationLevel MemoryOptimizationLevel.HIGH,
        DisplayCall.SetRefreshRate 10, DisplayCall.Refresh, DisplayCall.Refresh] _ rfl).1,
    ((locked_never_set FontAwesomeSymbols.sample).2.2 true 64 0
      [DisplayCall.SetMemoryOptimizationLevel MemoryOptimizationLevel.HIGH,
        DisplayCall.SetRefreshRate 10, DisplayCall.Refresh, DisplayCall.Refresh] _ rfl).2.2.2.2.1⟩

end OledDisplay

/-! ## Icons: properties -/

namespace OledDisplay

theorem SetNetworkIcon_of_label (fa : FontAwesomeSymbols) (s : OledDisplay) (label : LvObj)
    (icon : Option (List Char)) (h : s.network_label_ = some label) :
    (SetNetworkIcon fa s icon).network_icon_ =
        (if nullOrEmpty icon then some fa.FONT_AWESOME_BATTERY_FULL else icon) ∧
      (SetNetworkIcon fa s icon).network_label_ =
        some (label.set_text
          (if nullOrEmpty icon then fa.FONT_AWESOME_BATTERY_FULL
           else icon.getD [])).clear_flag_hidden := by
  unfold SetNetworkIcon
  rw [h]
  exact ⟨rfl, rfl⟩

theorem new_network_icon (fa : FontAwesomeSymbols) (height : ℤ) (scroll_anim : ℕ) :
    (new fa true height scroll_anim).network_icon_ = some fa.FONT_AWESOME_SIGNAL_1 ∧
      (new fa true height scroll_anim).networkText = cstr fa.FONT_AWESOME_SIGNAL_1 := by
  unfold new
  by_cases h : height = 64
  · simp only [h, if_true]
    exact ⟨rfl, rfl⟩
  · simp only [h, if_false]
    exact ⟨rfl, rfl⟩

theorem UpdateBatteryDisplay_network_fallback (fa : FontAwesomeSymbols) (d : AdcDriver)
    (s s1 : OledDisplay) (monitor : BatteryMonitor) (battery network : LvObj)
    (hm : s.battery_monitor_ = some monitor) (hb : s.battery_label_ = some battery)
    (hn : s.network_label_ = some network) (hi : nullOrEmpty s.network_icon_ = true)
    (h : UpdateBatteryDisplay fa d s = some s1) :
    s1.network_icon_ = some fa.FONT_AWESOME_SIGNAL_1 ∧
      s1.networkText = cstr fa.FONT_AWESOME_SIGNAL_1 := by
  unfold UpdateBatteryDisplay at h
  rw [hm, hb] at h
  dsimp only at h
  cases hp : BatteryMonitor.GetBatteryPercentage d monitor with
  | none => simp [hp] at h
  | some p =>
    rw [hp] at h
    dsimp only at h
    rw [hn] at h
    simp only [hi, if_true, Option.some.injEq] at h
    subst h
    exact ⟨rfl, rfl⟩

/-- Evaluation for C17: on a display whose network label exists, `SetNetworkIcon` stores a
non-empty identifier as given, and for a null or an empty identifier it stores and
shows `FONT_AWESOME_BATTERY_FULL`, whereas the constructor, the render pass of `Refresh`
and `UpdateBatteryDisplay` fall back to `FONT_AWESOME_SIGNAL_1`. -/
theorem SetNetworkIcon_fallback (fa : FontAwesomeSymbols) (s : OledDisplay) (label : LvObj)
    (h : s.network_label_ = some label) :
    (∀ icon : List Char, nullOrEmpty (some icon) = false →
      (SetNetworkIcon fa s (some icon)).network_icon_ = some icon ∧
        (SetNetworkIcon fa s (some icon)).networkText = cstr icon) ∧
    (SetNetworkIcon fa s none).network_icon_ = some fa.FONT_AWESOME_BATTERY_FULL ∧
    (SetNetworkIcon fa s none).networkText = cstr fa.FONT_AWESOME_BATTERY_FULL ∧
    (SetNetworkIcon fa s (some [])).network_icon_ = some fa.FONT_AWESOME_BATTERY_FULL ∧
    (SetNetworkIcon fa s (some [])).networkText = cstr fa.FONT_AWESOME_BATTERY_FULL ∧
    (∀ height scroll_anim,
      (new fa true height scroll_anim).network_icon_ = some fa.FONT_AWESOME_SIGNAL_1) ∧
    (s.locked_ = true → ¬ (s.refresh_counter_ + 1) % 256 < s.refresh_rate_ →
      nullOrEmpty s.network_icon_ = true →
      (Refresh fa s).networkText = cstr fa.FONT_AWESOME_SIGNAL_1) ∧
    (∀ d s1 monitor battery, s.battery_monitor_ = some monitor →
      s.battery_label_ = some battery → nullOrEmpty s.network_icon_ = true →
      UpdateBatteryDisplay fa d s = some s1 →
      s1.network_icon_ = some fa.FONT_AWESOME_SIGNAL_1) := by
  refine ⟨fun icon hi => ?_, ?_, ?_, ?_, ?_, fun height a => (new_network_icon fa height a).1,
    fun hl hc hi => ?_, fun d s1 monitor battery hm hb hi hu =>
      (UpdateBatteryDisplay_network_fallback fa d s s1 monitor battery label hm hb h hi hu).1⟩
  · obtain ⟨h1, h2⟩ := SetNetworkIcon_of_label fa s label (some icon) h
    rw [hi] at h1 h2
    constructor
    · rw [h1]
      rfl
    · unfold networkText
      rw [h2]
      rfl
  · rw [(SetNetworkIcon_of_label fa s label none h).1]
    rfl
  · unfold networkText
    rw [(SetNetworkIcon_of_label fa s label none h).2]
    rfl
  · rw [(SetNetworkIcon_of_label fa s label (some []) h).1]
    rfl
  · unfold networkText
    rw [(SetNetworkIcon_of_label fa s label (some []) h).2]
    rfl
  · unfold networkText
    rw [(Refresh_pass fa s hl hc).2.2.2.2.2.2.2.2, h, hi]
    rfl

/-- Witness for C17: on the constructed display, whose network icon is the signal
glyph, `SetNetworkIcon(nullptr)` stores the battery glyph, a different string. -/
theorem SetNetworkIcon_fallback_witness :
    (new FontAwesomeSymbols.sample true 64 0).network_icon_ = some "signal-1".toList ∧
      (SetNetworkIcon FontAwesomeSymbols.sample (new FontAwesomeSymbols.sample true 64 0)
        none).network_icon_ = some "battery-full".toList ∧
      (SetNetworkIcon FontAwesomeSymbols.sample (new FontAwesomeSymbols.sample true 64 0)
        none).network_icon_ ≠ (new FontAwesomeSymbols.sample true 64 0).network_icon_ :=
  ⟨rfl,
    (SetNetworkIcon_fallback FontAwesomeSymbols.sample
      (new FontAwesomeSymbols.sample true 64 0) _ rfl).2.1,
    by
      rw [(SetNetworkIcon_fallback FontAwesomeSymbols.sample
        (new FontAwesomeSymbols.sample true 64 0) _ rfl).2.1]
      decide⟩

end OledDisplay

/-! ## Chat message: line breaks, and null or empty content -/

namespace OledDisplay

theorem SetChatMessage_high_state (s : OledDisplay) (role : Option (List Char))
    (c : List Char) (label : LvObj) (hlabel : s.chat_message_label_ = some label)
    (hbuf : s.BuffersSized) (hne : nullOrEmpty (some c) = false)
    (hlevel : s.memory_optimization_level_ = MemoryOptimizationLevel.HIGH) :
    ∃ b : List Char, b.length = STATIC_BUFFER_SIZE ∧
      cstr b = ((cstr c).take 36).map replaceNewline ++
        (if 36 < (cstr c).length then ['.', '.', '.'] else []) ∧
      SetChatMessage s role (some c) =
        some { s with
          static_buffer := b
          chat_message_label_ := some { label with
            long_mode := LabelLongMode.SCROLL, text := cstr b, anim_time := 8000 }
          content_right_ := s.content_right_.map LvObj.clear_flag_hidden } := by
  obtain ⟨b, hb, hlen, htext⟩ :=
    stageBounded_spec STATIC_BUFFER_SIZE c s.static_buffer (by decide) hbuf.1
  refine ⟨b, hlen, htext, ?_⟩
  unfold SetChatMessage
  rw [hlabel]
  dsimp only
  rw [if_pos hlevel, hne]
  simp only [Bool.false_eq_true, if_false, Option.getD_some]
  rw [hb]

theorem SetChatMessage_unbounded (s : OledDisplay) (role : Option (List Char))
    (c : List Char) (label : LvObj) (hlabel : s.chat_message_label_ = some label)
    (hne : nullOrEmpty (some c) = false)
    (hh : s.memory_optimization_level_ ≠ MemoryOptimizationLevel.HIGH)
    (hm : s.memory_optimization_level_ ≠ MemoryOptimizationLevel.MEDIUM) :
    ∃ s1, SetChatMessage s role (some c) = some s1 ∧
      s1.chatText = (cstr c).map replaceNewline := by
  unfold SetChatMessage
  rw [hlabel]
  dsimp only
  rw [if_neg hh, if_neg hm]
  cases hr : s.content_right_ with
  | none => exact ⟨_, rfl, rfl⟩
  | some right =>
    dsimp only
    rw [hne]
    exact ⟨_, rfl, rfl⟩

theorem no_newline_of_staged (t : List Char) (tail : List Char)
    (ht : tail = [] ∨ tail = ['.', '.', '.']) :
    ∀ x ∈ t.map replaceNewline ++ tail, x ≠ '\n' := by
  intro x hx
  rw [List.mem_append] at hx
  rcases hx with hx | hx
  · obtain ⟨y, _, rfl⟩ := List.mem_map.mp hx
    exact replaceNewline_ne_newline y
  · rcases ht with ht | ht
    · rw [ht] at hx
      simp at hx
    · rw [ht] at hx
      simp at hx
      subst hx
      decide

theorem getElem?_of_staged (t tail : List Char) (i : ℕ) (x : Char)
    (h : t[i]? = some x) :
    (t.map replaceNewline ++ tail)[i]? = some (if x = '\n' then ' ' else x) := by
  have hi : i < t.length := by
    by_contra hc
    rw [List.getElem?_eq_none (by omega)] at h
    simp at h
  rw [List.getElem?_append_left (by simpa using hi), List.getElem?_map, h]
  rfl

theorem cstr_hello : cstr "hello\nworld".toList = "hello\nworld".toList := by decide

/-- C11: at every level and for every non-empty content, with `n` the number of
characters copied (36 at HIGH, 76 at MEDIUM when the content is longer, the whole
content otherwise), the staged text is the copied part with each `'\n'` replaced by one
space and every other character unchanged at its position, followed by nothing or by
the ellipsis; it contains no `'\n'`; and `"hello\nworld"` at HIGH is stored as
`"hello world"`. -/
theorem SetChatMessage_replaces_line_breaks (s : OledDisplay) (role : Option (List Char))
    (content : List Char) (label : LvObj)
    (hlabel : s.chat_message_label_ = some label) (hbuf : s.BuffersSized)
    (hne : nullOrEmpty (some content) = false) :
    (∃ s1 tail, SetChatMessage s role (some content) = some s1 ∧
      (tail = [] ∨ tail = ['.', '.', '.']) ∧
      s1.chatText =
        ((cstr content).take
          (if s.memory_optimization_level_ = MemoryOptimizationLevel.HIGH then 36
           else if s.memory_optimization_level_ = MemoryOptimizationLevel.MEDIUM then 76
           else (cstr content).length)).map replaceNewline ++ tail ∧
      (∀ x ∈ s1.chatText, x ≠ '\n') ∧
      (∀ (i : ℕ) (x : Char),
        ((cstr content).take
          (if s.memory_optimization_level_ = MemoryOptimizationLevel.HIGH then 36
           else if s.memory_optimization_level_ = MemoryOptimizationLevel.MEDIUM then 76
           else (cstr content).length))[i]? = some x →
        s1.chatText[i]? = some (if x = '\n' then ' ' else x))) ∧
    (s.memory_optimization_level_ = MemoryOptimizationLevel.HIGH →
      content = "hello\nworld".toList →
      ∃ s1, SetChatMessage s role (some content) = some s1 ∧
        s1.chatText = "hello world".toList) := by
  have key : ∀ (s1 : OledDisplay) (n : ℕ) (tail : List Char),
      SetChatMessage s role (some content) = some s1 →
      (tail = [] ∨ tail = ['.', '.', '.']) →
      s1.chatText = ((cstr content).take n).map replaceNewline ++ tail →
      ∃ s1 tail, SetChatMessage s role (some content) = some s1 ∧
        (tail = [] ∨ tail = ['.', '.', '.']) ∧
        s1.chatText = ((cstr content).take n).map replaceNewline ++ tail ∧
        (∀ x ∈ s1.chatText, x ≠ '\n') ∧
        (∀ (i : ℕ) (x : Char), ((cstr content).take n)[i]? = some x →
          s1.chatText[i]? = some (if x = '\n' then ' ' else x)) := by
    intro s1 n tail h1 ht htext
    refine ⟨s1, tail, h1, ht, htext, ?_, ?_⟩
    · rw [htext]
      exact no_newline_of_staged _ tail ht
    · intro i x hx
      rw [htext]
      exact getElem?_of_staged _ tail i x hx
  constructor
  · by_cases hh : s.memory_optimization_level_ = MemoryOptimizationLevel.HIGH
    · obtain ⟨s1, h1, _, _, h4⟩ := SetChatMessage_high s role content label hlabel hbuf hne hh
      rw [if_pos hh]
      refine key s1 36 _ h1 ?_ h4
      split_ifs
      · exact Or.inr rfl
      · exact Or.inl rfl
    · by_cases hm : s.memory_optimization_level_ = MemoryOptimizationLevel.MEDIUM
      · obtain ⟨s1, h1, _, _, h4⟩ :=
          SetChatMessage_medium s role content label hlabel hbuf hne hm
        rw [if_neg hh, if_pos hm]
        refine key s1 76 _ h1 ?_ h4
        split_ifs
        · exact Or.inr rfl
        · exact Or.inl rfl
      · obtain ⟨s1, h1, h2⟩ := SetChatMessage_unbounded s role content label hlabel hne hh hm
        rw [if_neg hh, if_neg hm]
        refine key s1 _ [] h1 (Or.inl rfl) ?_
        rw [h2, List.take_length, List.append_nil]
  · intro hh hc
    obtain ⟨s1, h1, _, _, h4⟩ := SetChatMessage_high s role content label hlabel hbuf hne hh
    refine ⟨s1, h1, ?_⟩
    rw [h4, hc, cstr_hello]
    decide

/-- Witness of C11: `"hello\nworld"` at HIGH. -/
theorem SetChatMessage_replaces_line_breaks_witness :
    ∃ s1, SetChatMessage (sample MemoryOptimizationLevel.HIGH) none
        (some "hello\nworld".toList) = some s1 ∧ s1.chatText = "hello world".toList :=
  (SetChatMessage_replaces_line_breaks (sample MemoryOptimizationLevel.HIGH) none
    "hello\nworld".toList _ rfl ⟨rfl, rfl⟩ (by decide)).2 rfl rfl

end OledDisplay

namespace OledDisplay

theorem cstr_hi : cstr "hi".toList = "hi".toList := by decide

/-- C12, evaluated where it fails: on the display as constructed (level NONE) a null
content is undefined, the `std::string` being built from the null pointer in front of
the test for null; and on the board's display in the 128x32 layout (level HIGH, no
`content_right_`) that shows `"hi"`, both the empty and the null content leave the
display as it is: nothing is hidden and the label still shows `"hi"`. -/
theorem SetChatMessage_null_or_empty_not_hidden :
    SetChatMessage (new FontAwesomeSymbols.sample true 64 0) none none = none ∧
    ∃ s1 label,
      SetChatMessage (SilicoreC3Oled.new FontAwesomeSymbols.sample true 32 0) none
        (some "hi".toList) = some s1 ∧
      SetChatMessage s1 none (some []) = some s1 ∧
      SetChatMessage s1 none none = some s1 ∧
      s1.content_right_ = none ∧
      s1.chat_message_label_ = some label ∧ label.hidden = false ∧
      label.text = "hi".toList := by
  refine ⟨rfl, ?_⟩
  obtain ⟨b, hb, htext, hs⟩ := SetChatMessage_high_state
    (SilicoreC3Oled.new FontAwesomeSymbols.sample true 32 0) none "hi".toList _ rfl
    ⟨rfl, rfl⟩ (by decide) rfl
  refine ⟨_, _, hs, ?_, ?_, rfl, rfl, rfl, ?_⟩
  · exact SetChatMessage_of_nullOrEmpty _ none (some []) _ rfl (Or.inl rfl) rfl
  · exact SetChatMessage_of_nullOrEmpty _ none none _ rfl (Or.inl rfl) rfl
  · show cstr b = "hi".toList
    rw [htext, cstr_hi]
    decide

/-- What `SetChatMessage` does with a content that is null or the empty string, where
that is defined (HIGH and MEDIUM, and the empty string at NONE and LOW).  Where
`content_right_` exists it is left hidden and the text of the label and the buffers
are as before (at NONE and LOW the long mode of the label is set).  Where it does not
exist nothing is hidden: HIGH and MEDIUM change nothing, NONE and LOW set the text of
the label to the empty string.  Without a chat label the call changes nothing. -/
theorem SetChatMessage_null_or_empty (s : OledDisplay) (role content : Option (List Char))
    (he : nullOrEmpty content = true) :
    (s.chat_message_label_ = none → SetChatMessage s role content = some s) ∧
    (∀ label, s.chat_message_label_ = some label →
      (s.memory_optimization_level_ = MemoryOptimizationLevel.HIGH ∨
        s.memory_optimization_level_ = MemoryOptimizationLevel.MEDIUM) →
      SetChatMessage s role content =
          some { s with content_right_ := s.content_right_.map LvObj.add_flag_hidden } ∧
        (s.content_right_ = none → SetChatMessage s role content = some s)) ∧
    (∀ label c, s.chat_message_label_ = some label → content = some c →
      s.memory_optimization_level_ ≠ MemoryOptimizationLevel.HIGH →
      s.memory_optimization_level_ ≠ MemoryOptimizationLevel.MEDIUM →
      (∀ right, s.content_right_ = some right →
        SetChatMessage s role content =
          some { s with
            chat_message_label_ := some { label with
              long_mode := LabelLongMode.SCROLL_CIRCULAR }
            content_right_ := some right.add_flag_hidden }) ∧
      (s.content_right_ = none →
        SetChatMessage s role content =
          some { s with
            chat_message_label_ := some { label with
              long_mode := LabelLongMode.SCROLL_CIRCULAR
              text := [] } })) := by
  refine ⟨fun hnone => ?_, fun label hlabel hlevel => ?_, fun label c hlabel hc hh hm => ?_⟩
  · unfold SetChatMessage
    rw [hnone]
  · have h1 := SetChatMessage_of_nullOrEmpty s role content label hlabel hlevel he
    refine ⟨h1, fun hr => ?_⟩
    rw [h1]
    cases s
    simp only at hr
    subst hr
    rfl
  · subst hc
    have hcs : cstr c = [] := by
      by_contra hne
      have hpos : 0 < (cstr c).length := List.length_pos.mpr hne
      have h0 := ((charAt_cstr c 0 (Nat.zero_le _)).1 hpos).2
      simp [nullOrEmpty, h0] at he
    constructor
    · intro right hr
      unfold SetChatMessage
      rw [hlabel]
      dsimp only
      rw [if_neg hh, if_neg hm, hr]
      dsimp only
      rw [he]
      rfl
    · intro hr
      unfold SetChatMessage
      rw [hlabel]
      dsimp only
      rw [if_neg hh, if_neg hm, hr]
      dsimp only
      rw [hcs]
      rfl

end OledDisplay
